import Mathlib

/-!
Shallow embedding of the `religiosa1/rate-limiters` TypeScript repository.

The repository implements four rate-limiting strategies (fixed window,
sliding window, floating/approximated window, token bucket), each as a
store-backed "transaction" variant (`...NoLua`), a store-backed "script"
variant (the Lua code executed on the valkey store, modelled here by a pure
Lean function mirroring the script body), and — for fixed and floating
window — an in-memory variant.

Modelling conventions:
* JS `number` values are modelled as `Int` where the code only ever holds
  integers (timestamps, counters, limits) and as `Rat` where fractional
  values occur (token counts, window weights).  Arithmetic is exact.
* `Date.now()` is passed in explicitly as a `nowTs : Int` argument
  (millisecond timestamps), matching the injectable-clock reading of the code.
* The valkey store is modelled per value shape as an association list from
  structured keys to entries carrying a value and an optional absolute
  expiry (`PEXPIREAT` semantics: an entry is live at `now` iff
  `now < expireAt`; expired entries behave as absent).  The source derives
  string keys by concatenating a prefix, a window-start timestamp and the
  client id; the embedding keeps those components as a structured key,
  which preserves the key-derivation data.
* `crypto.randomUUID()` hit ids are modelled as caller-supplied `Nat`
  tokens (fresh per hit in every run we consider).
* Scripts are executed atomically by the store; since all claims are about
  strictly sequential calls, every operation is a pure function from
  store to store.
-/

namespace RateLimiters

/-- One stored value together with its optional absolute expiry time
(in ms, `PEXPIREAT` style). -/
structure Entry (α : Type) where
  val : α
  expireAt : Option Int
deriving Repr, DecidableEq

/-- Association-list model of the valkey keyspace for one value shape. -/
abbrev Store (κ : Type) (α : Type) := List (κ × Entry α)

/-- Raw lookup of a key binding (ignores expiry).  Also used for the
in-memory limiters' `Map.get`. -/
def kvGet {κ β : Type} [DecidableEq κ] : List (κ × β) → κ → Option β
  | [], _ => none
  | (k2, e) :: rest, k => if k2 = k then some e else kvGet rest k

/-- Replace the binding for `k`, or append it if absent.  Also used for
the in-memory limiters' `Map.set`. -/
def kvSet {κ β : Type} [DecidableEq κ] : List (κ × β) → κ → β → List (κ × β)
  | [], k, e => [(k, e)]
  | (k2, e2) :: rest, k, e =>
      if k2 = k then (k2, e) :: rest else (k2, e2) :: kvSet rest k e

/-- Remove the binding for `k` (used for the automatic deletion of a
sorted set that becomes empty). -/
def kvErase {κ β : Type} [DecidableEq κ] : List (κ × β) → κ → List (κ × β)
  | [], _ => []
  | (k2, e2) :: rest, k =>
      if k2 = k then rest else (k2, e2) :: kvErase rest k

/-- An entry is live at `now` iff its expiry has not been reached. -/
def entryLive {α : Type} (e : Entry α) (now : Int) : Bool :=
  match e.expireAt with
  | none => true
  | some t => decide (now < t)

/-- Live lookup: an expired or absent entry reads as `none`. -/
def liveGet {κ α : Type} [DecidableEq κ] (s : Store κ α) (now : Int) (k : κ) :
    Option (Entry α) :=
  match kvGet s k with
  | some e => if entryLive e now then some e else none
  | none => none

/-- `GET` returning just the stored value of a live entry. -/
def vkGet {κ α : Type} [DecidableEq κ] (s : Store κ α) (now : Int) (k : κ) :
    Option α :=
  (liveGet s now k).map Entry.val

/-- `INCR`: increment a live integer entry (keeping its expiry), or create a
fresh entry with value 1 and no expiry when the key is absent or expired. -/
def vkIncr {κ : Type} [DecidableEq κ] (s : Store κ Int) (now : Int) (k : κ) :
    Int × Store κ Int :=
  match liveGet s now k with
  | some e => (e.val + 1, kvSet s k { e with val := e.val + 1 })
  | none => (1, kvSet s k { val := 1, expireAt := none })

/-- `PEXPIREAT`: set the absolute expiry of a live key; no-op on a missing
or expired key. -/
def vkPexpireAt {κ α : Type} [DecidableEq κ] (s : Store κ α) (now : Int)
    (k : κ) (t : Int) : Store κ α :=
  match liveGet s now k with
  | some e => kvSet s k { e with expireAt := some t }
  | none => s

/-- `SET ... PX/expiry`: unconditionally store a value with an absolute
expiry (the glide client's `set` with an expiry option). -/
def vkSetEx {κ α : Type} [DecidableEq κ] (s : Store κ α) (k : κ) (v : α)
    (expireAt : Int) : Store κ α :=
  kvSet s k { val := v, expireAt := some expireAt }

/-- JS `Math.floor((nowTs - start) / duration) * duration + start`:
for a positive `duration` the real-division-then-floor equals Euclidean
division.  Shared by the fixed-window, floating-window and in-memory
limiters (each has a private method with exactly this body). -/
def windowStartTs (startDate duration nowTs : Int) : Int :=
  (nowTs - startDate) / duration * duration + startDate

theorem windowStartTs_le {startDate duration nowTs : Int} (h : 0 < duration) :
    windowStartTs startDate duration nowTs ≤ nowTs := by
  unfold windowStartTs
  have := Int.ediv_mul_le (nowTs - startDate) (Int.ne_of_gt h)
  omega

theorem lt_windowStartTs_add {startDate duration nowTs : Int} (h : 0 < duration) :
    nowTs < windowStartTs startDate duration nowTs + duration := by
  unfold windowStartTs
  have h2 := Int.lt_ediv_add_one_mul_self (nowTs - startDate) h
  nlinarith

/-- The window start lies on the `startDate`-anchored grid. -/
theorem windowStartTs_onGrid (startDate duration nowTs : Int) :
    (windowStartTs startDate duration nowTs - startDate) % duration = 0 := by
  unfold windowStartTs
  simp [Int.add_sub_cancel, Int.mul_emod_left]

/-- Uniqueness: a grid point whose window contains `nowTs` is the window
start of `nowTs`. -/
theorem windowStartTs_eq_of_mem {startDate duration nowTs c : Int}
    (hd : 0 < duration) (hgrid : (c - startDate) % duration = 0)
    (h1 : c ≤ nowTs) (h2 : nowTs < c + duration) :
    windowStartTs startDate duration nowTs = c := by
  obtain ⟨q, hq⟩ : ∃ q, c - startDate = duration * q := by
    have := Int.dvd_of_emod_eq_zero hgrid
    exact this
  unfold windowStartTs
  have hdiv : (nowTs - startDate) / duration = q := by
    have hcomm : q * duration = duration * q := mul_comm q duration
    have h5 := (Int.ediv_emod_unique (a := nowTs - startDate) (b := duration)
      (r := nowTs - startDate - duration * q) (q := q) hd).mpr (by omega)
    exact h5.1
  rw [hdiv]
  have hcomm : q * duration = duration * q := mul_comm q duration
  omega

/-- Shifting by one window size shifts the window start accordingly. -/
theorem windowStartTs_sub_duration (startDate nowTs : Int) {duration : Int}
    (hd : duration ≠ 0) :
    windowStartTs startDate duration (nowTs - duration) =
      windowStartTs startDate duration nowTs - duration := by
  unfold windowStartTs
  have h : nowTs - duration - startDate = nowTs - startDate + duration * (-1) := by ring
  rw [h, Int.add_mul_ediv_left _ _ hd]
  ring

/-! ### Basic association-list lemmas -/

theorem kvGet_kvSet_self {κ β : Type} [DecidableEq κ] (s : List (κ × β)) (k : κ)
    (e : β) : kvGet (kvSet s k e) k = some e := by
  induction s with
  | nil => simp [kvGet, kvSet]
  | cons hd tl ih =>
      by_cases h : hd.1 = k <;> simp [kvGet, kvSet, h, ih]

theorem kvGet_kvSet_ne {κ β : Type} [DecidableEq κ] (s : List (κ × β)) {k k2 : κ}
    (e : β) (h : k ≠ k2) : kvGet (kvSet s k e) k2 = kvGet s k2 := by
  induction s with
  | nil => simp [kvGet, kvSet, h]
  | cons hd tl ih =>
      by_cases h2 : hd.1 = k <;> simp [kvGet, kvSet, h2, h, ih]

/-- Re-writing the value already stored under a key is a no-op. -/
theorem kvSet_eq_self {κ β : Type} [DecidableEq κ] {s : List (κ × β)} {k : κ}
    {e : β} (h : kvGet s k = some e) : kvSet s k e = s := by
  induction s with
  | nil => simp [kvGet] at h
  | cons hd tl ih =>
      obtain ⟨k1, e1⟩ := hd
      by_cases h2 : k1 = k
      · simp [kvGet, h2] at h
        simp [kvSet, h2, h]
      · simp [kvGet, h2] at h
        simp [kvSet, h2, ih h]

/-! ### Fixed window limiter (`src/Limiters/FixedWindowLimiter.ts`)

Keys are the structured form of the string
`keyPrefix:windowStartTs:clientId`. -/

/-- Structured window-counter key (prefix, window start, client id). -/
structure WindowKey where
  keyPfx : String
  startTs : Int
  clientId : String
deriving Repr, DecidableEq

/-- Store of per-window integer counters (fixed and floating window). -/
abbrev WStore := Store WindowKey Int

/-- Options of the fixed-window limiter (`startDate` as epoch ms). -/
structure FixedWindowLimiterOpts where
  windowSizeMs : Int
  startDate : Int
  limit : Int
  keyPfx : String
deriving Repr, DecidableEq

def FixedWindowLimiterNoLua.calcCurrentWindowStartTs
    (opts : FixedWindowLimiterOpts) (nowTs : Int) : Int :=
  windowStartTs opts.startDate opts.windowSizeMs nowTs

def FixedWindowLimiterNoLua.getClientKey (opts : FixedWindowLimiterOpts)
    (clientId : String) (nowTs : Int) : WindowKey :=
  { keyPfx := opts.keyPfx,
    startTs := FixedWindowLimiterNoLua.calcCurrentWindowStartTs opts nowTs,
    clientId := clientId }

/-- Transaction variant: `INCR key; PEXPIREAT key expireAtMs` in one
transaction, returning `limit - count`. -/
def FixedWindowLimiterNoLua.registerHit (opts : FixedWindowLimiterOpts)
    (s : WStore) (clientId : String) (nowTs : Int) : Int × WStore :=
  let key := FixedWindowLimiterNoLua.getClientKey opts clientId nowTs
  let expireAtMs :=
    FixedWindowLimiterNoLua.calcCurrentWindowStartTs opts nowTs + opts.windowSizeMs
  let r := vkIncr s nowTs key
  let s2 := vkPexpireAt r.2 nowTs key expireAtMs
  (opts.limit - r.1, s2)

/-- `GET` of the current window counter; `limit` when the key is absent. -/
def FixedWindowLimiterNoLua.getAvailableHits (opts : FixedWindowLimiterOpts)
    (s : WStore) (clientId : String) (nowTs : Int) : Int :=
  match vkGet s nowTs (FixedWindowLimiterNoLua.getClientKey opts clientId nowTs) with
  | none => opts.limit
  | some c => opts.limit - c

/-- Body of the fixed-window Lua script: `INCR`, conditional `PEXPIREAT`
on the first hit, result `limit - count`. -/
def FixedWindowLimiter.luaScript (limit expireAtMs : Int) (key : WindowKey)
    (s : WStore) (now : Int) : Int × WStore :=
  let r := vkIncr s now key
  let s2 := if r.1 = 1 then vkPexpireAt r.2 now key expireAtMs else r.2
  (limit - r.1, s2)

/-- Script variant of `registerHit`; the wrapper clamps the script result
with `Math.max(result, -1)`. -/
def FixedWindowLimiter.registerHit (opts : FixedWindowLimiterOpts)
    (s : WStore) (clientId : String) (nowTs : Int) : Int × WStore :=
  let key := FixedWindowLimiterNoLua.getClientKey opts clientId nowTs
  let expireAtMs :=
    FixedWindowLimiterNoLua.calcCurrentWindowStartTs opts nowTs + opts.windowSizeMs
  let r := FixedWindowLimiter.luaScript opts.limit expireAtMs key s nowTs
  (max r.1 (-1), r.2)

/-! ### Floating window limiter (`src/Limiters/FloatingWindowLimiter.ts`) -/

structure FloatingWindowLimiterOpts where
  windowSizeMs : Int
  startDate : Int
  limit : Int
  keyPfx : String
deriving Repr, DecidableEq

def FloatingWindowLimiterNoLua.calcFixedWindowStartTs
    (opts : FloatingWindowLimiterOpts) (nowTs : Int) : Int :=
  windowStartTs opts.startDate opts.windowSizeMs nowTs

def FloatingWindowLimiterNoLua.getClientWindowKey
    (opts : FloatingWindowLimiterOpts) (clientId : String)
    (windowStart : Int) : WindowKey :=
  { keyPfx := opts.keyPfx, startTs := windowStart, clientId := clientId }

/-- `(currentWindowStart - (nowTs - windowSizeMs)) / windowSizeMs` as an
exact rational. -/
def FloatingWindowLimiterNoLua.calcPrevWindowWeight
    (opts : FloatingWindowLimiterOpts) (nowTs : Int) : Rat :=
  let currentWindowStart := FloatingWindowLimiterNoLua.calcFixedWindowStartTs opts nowTs
  let slidingWindowStart := nowTs - opts.windowSizeMs
  let prevWindowDiff := currentWindowStart - slidingWindowStart
  (prevWindowDiff : Rat) / (opts.windowSizeMs : Rat)

/-- Transaction variant: `GET prevKey; INCR curKey; PEXPIREAT curKey ...`
in one transaction, result `Math.floor(limit - (prev*weight + cur))`. -/
def FloatingWindowLimiterNoLua.registerHit (opts : FloatingWindowLimiterOpts)
    (s : WStore) (clientId : String) (nowTs : Int) : Int × WStore :=
  let currentWindowStart := FloatingWindowLimiterNoLua.calcFixedWindowStartTs opts nowTs
  let prevKey := FloatingWindowLimiterNoLua.getClientWindowKey opts clientId
    (currentWindowStart - opts.windowSizeMs)
  let curKey := FloatingWindowLimiterNoLua.getClientWindowKey opts clientId
    currentWindowStart
  let prevCount : Int := (vkGet s nowTs prevKey).getD 0
  let r := vkIncr s nowTs curKey
  let s2 := vkPexpireAt r.2 nowTs curKey (currentWindowStart + opts.windowSizeMs)
  let weight := FloatingWindowLimiterNoLua.calcPrevWindowWeight opts nowTs
  let approx : Rat := (prevCount : Rat) * weight + (r.1 : Rat)
  (⌊(opts.limit : Rat) - approx⌋, s2)

/-- Read-only variant: two `GET`s, result `limit - approx` (un-floored). -/
def FloatingWindowLimiterNoLua.getAvailableHits (opts : FloatingWindowLimiterOpts)
    (s : WStore) (clientId : String) (nowTs : Int) : Rat :=
  let currentWindowStart := FloatingWindowLimiterNoLua.calcFixedWindowStartTs opts nowTs
  let prevKey := FloatingWindowLimiterNoLua.getClientWindowKey opts clientId
    (currentWindowStart - opts.windowSizeMs)
  let curKey := FloatingWindowLimiterNoLua.getClientWindowKey opts clientId
    currentWindowStart
  let prevCount : Int := (vkGet s nowTs prevKey).getD 0
  let curCount : Int := (vkGet s nowTs curKey).getD 0
  let weight := FloatingWindowLimiterNoLua.calcPrevWindowWeight opts nowTs
  let approx : Rat := (prevCount : Rat) * weight + (curCount : Rat)
  (opts.limit : Rat) - approx

/-- Lua number → RESP integer conversion: the decimal part is dropped
(truncation toward zero). -/
def luaToRespInt (q : Rat) : Int :=
  q.num.tdiv (q.den : Int)

/-- Body of the floating-window Lua script: `tonumber(GET prev)` with
`nil → 0`, `INCR` current, conditional `PEXPIREAT` on the first hit,
returning `limit - (prev*weight + cur)` converted to a RESP integer. -/
def FloatingWindowLimiter.luaScript (expireAtMs : Int) (weight : Rat)
    (limit : Int) (keyPrev keyCur : WindowKey) (s : WStore) (now : Int) :
    Int × WStore :=
  let countPrev : Int := (vkGet s now keyPrev).getD 0
  let r := vkIncr s now keyCur
  let s2 := if r.1 = 1 then vkPexpireAt r.2 now keyCur expireAtMs else r.2
  let approx : Rat := (countPrev : Rat) * weight + (r.1 : Rat)
  (luaToRespInt ((limit : Rat) - approx), s2)

/-- Script variant of `registerHit`; the wrapper applies `Math.floor` to
the (already integral) script result. -/
def FloatingWindowLimiter.registerHit (opts : FloatingWindowLimiterOpts)
    (s : WStore) (clientId : String) (nowTs : Int) : Int × WStore :=
  let currentWindowStart := FloatingWindowLimiterNoLua.calcFixedWindowStartTs opts nowTs
  let curKey := FloatingWindowLimiterNoLua.getClientWindowKey opts clientId
    currentWindowStart
  let prevKey := FloatingWindowLimiterNoLua.getClientWindowKey opts clientId
    (currentWindowStart - opts.windowSizeMs)
  let expireAtMs := currentWindowStart + opts.windowSizeMs
  let weight := FloatingWindowLimiterNoLua.calcPrevWindowWeight opts nowTs
  FloatingWindowLimiter.luaScript expireAtMs weight opts.limit prevKey curKey s nowTs

/-! ### Sliding window limiter (`src/Limiters/SlidingWindowLimiter.ts`)

The per-client sorted set of hits is modelled as a list of
`(hit id, score)` pairs; `crypto.randomUUID()` hit ids are modelled as
caller-supplied `Nat` tokens, fresh per hit. -/

/-- Structured form of the string key `keyPrefix:clientId`. -/
structure SlidingKey where
  keyPfx : String
  clientId : String
deriving Repr, DecidableEq

abbrev ZStore := Store SlidingKey (List (Nat × Int))

/-- `ZREMRANGEBYSCORE key -inf hi` (inclusive upper bound).  A sorted set
that becomes empty is deleted, expiry included. -/
def zremRangeByScoreToInc (s : ZStore) (now : Int) (k : SlidingKey)
    (hi : Int) : ZStore :=
  match liveGet s now k with
  | some e =>
      let ms := e.val.filter (fun m => decide (hi < m.2))
      if ms.isEmpty then kvErase s k else kvSet s k { e with val := ms }
  | none => s

/-- `ZADD key score member`: update the member's score when present,
append it otherwise; creates the key (without expiry) when absent. -/
def zadd (s : ZStore) (now : Int) (k : SlidingKey) (id : Nat) (score : Int) :
    ZStore :=
  match liveGet s now k with
  | some e =>
      if e.val.any (fun m => m.1 = id) then
        kvSet s k
          { e with val := e.val.map (fun m => if m.1 = id then (id, score) else m) }
      else kvSet s k { e with val := e.val ++ [(id, score)] }
  | none => kvSet s k { val := [(id, score)], expireAt := none }

/-- `ZCOUNT key lo hi`, both bounds inclusive. -/
def zcount (s : ZStore) (now : Int) (k : SlidingKey) (lo hi : Int) : Int :=
  match liveGet s now k with
  | some e => (e.val.countP (fun m => decide (lo ≤ m.2) && decide (m.2 ≤ hi)) : Int)
  | none => 0

structure SlidingWindowLimiterOpts where
  windowSizeMs : Int
  limit : Int
  keyPfx : String
deriving Repr, DecidableEq

def SlidingWindowLimiterNoLua.getClientKey (opts : SlidingWindowLimiterOpts)
    (clientId : String) : SlidingKey :=
  { keyPfx := opts.keyPfx, clientId := clientId }

/-- The separate pre-trim call issued by the transaction variant. -/
def SlidingWindowLimiterNoLua.removeExpiredHits (opts : SlidingWindowLimiterOpts)
    (s : ZStore) (clientId : String) (nowTs : Int) : ZStore :=
  zremRangeByScoreToInc s nowTs (SlidingWindowLimiterNoLua.getClientKey opts clientId)
    (nowTs - opts.windowSizeMs)

/-- Transaction variant: pre-trim, then
`ZREMRANGEBYSCORE; ZADD; PEXPIREAT; ZCOUNT` in one transaction. -/
def SlidingWindowLimiterNoLua.registerHit (opts : SlidingWindowLimiterOpts)
    (s : ZStore) (clientId : String) (hitId : Nat) (nowTs : Int) :
    Int × ZStore :=
  let wStart := nowTs - opts.windowSizeMs
  let key := SlidingWindowLimiterNoLua.getClientKey opts clientId
  let s1 := SlidingWindowLimiterNoLua.removeExpiredHits opts s clientId nowTs
  let s2 := zremRangeByScoreToInc s1 nowTs key wStart
  let s3 := zadd s2 nowTs key hitId nowTs
  let s4 := vkPexpireAt s3 nowTs key (nowTs + opts.windowSizeMs)
  let count := zcount s4 nowTs key wStart nowTs
  (opts.limit - count, s4)

/-- Read path shared by both variants (the script class does not override
it): one `ZCOUNT`, clamped at 0. -/
def SlidingWindowLimiterNoLua.getAvailableHits (opts : SlidingWindowLimiterOpts)
    (s : ZStore) (clientId : String) (nowTs : Int) : Int :=
  let key := SlidingWindowLimiterNoLua.getClientKey opts clientId
  let count := zcount s nowTs key (nowTs - opts.windowSizeMs) nowTs
  max (opts.limit - count) 0

/-- Body of the sliding-window Lua script. -/
def SlidingWindowLimiter.luaScript (hitId : Nat) (nowTs windowSize limit : Int)
    (key : SlidingKey) (s : ZStore) : Int × ZStore :=
  let wStart := nowTs - windowSize
  let s1 := zremRangeByScoreToInc s nowTs key wStart
  let s2 := zadd s1 nowTs key hitId nowTs
  let s3 := vkPexpireAt s2 nowTs key (nowTs + windowSize)
  let count := zcount s3 nowTs key wStart nowTs
  (limit - count, s3)

/-- Script variant of `registerHit`. -/
def SlidingWindowLimiter.registerHit (opts : SlidingWindowLimiterOpts)
    (s : ZStore) (clientId : String) (hitId : Nat) (nowTs : Int) :
    Int × ZStore :=
  SlidingWindowLimiter.luaScript hitId nowTs opts.windowSizeMs opts.limit
    (SlidingWindowLimiterNoLua.getClientKey opts clientId) s

/-! ### Token bucket limiter (`TokenBucketLimiter.ts`)

Two plain keys per client (`nTokens`, `updatedAt`), both holding numeric
strings, modelled as exact rationals. -/

inductive TokenBucketKeyTag where
  | nTokens
  | updatedAt
deriving Repr, DecidableEq

/-- Structured form of `keyPrefix:nTokens:clientId` /
`keyPrefix:updatedAt:clientId`. -/
structure TokenBucketKey where
  keyPfx : String
  tag : TokenBucketKeyTag
  clientId : String
deriving Repr, DecidableEq

abbrev TBStore := Store TokenBucketKey Rat

structure TokenBucketLimiterOpts where
  limit : Int
  refillIntervalMs : Int
  refillRate : Rat
  keyPfx : String
deriving Repr, DecidableEq

def TokenBucketLimiterNoLua.timeForCompleteRefillMs
    (opts : TokenBucketLimiterOpts) : Rat :=
  (opts.limit : Rat) / opts.refillRate * (opts.refillIntervalMs : Rat)

def TokenBucketLimiterNoLua.getNTokensKey (opts : TokenBucketLimiterOpts)
    (clientId : String) : TokenBucketKey :=
  { keyPfx := opts.keyPfx, tag := TokenBucketKeyTag.nTokens, clientId := clientId }

def TokenBucketLimiterNoLua.getTsKey (opts : TokenBucketLimiterOpts)
    (clientId : String) : TokenBucketKey :=
  { keyPfx := opts.keyPfx, tag := TokenBucketKeyTag.updatedAt, clientId := clientId }

/-- Tokens refilled over a duration of `n` ms. -/
def TokenBucketLimiterNoLua.getRefillAmountInMs (opts : TokenBucketLimiterOpts)
    (n : Rat) : Rat :=
  n / (opts.refillIntervalMs : Rat) * opts.refillRate

/-- Refill accrued since the stored `updatedAt`; 0 when `updatedAt` is
absent; the refill amount (not the sum) is capped at `limit`. -/
def TokenBucketLimiterNoLua.calculateRefilledTokenAmountAtTime
    (opts : TokenBucketLimiterOpts) (s : TBStore) (clientId : String)
    (ts : Int) : Rat :=
  match vkGet s ts (TokenBucketLimiterNoLua.getTsKey opts clientId) with
  | none => 0
  | some lastTs =>
      let elapsedMs := (ts : Rat) - lastTs
      min (TokenBucketLimiterNoLua.getRefillAmountInMs opts elapsedMs)
        (opts.limit : Rat)

/-- `SET nTokens …; SET updatedAt …` with a shared relative expiry of
`ceil(timeForCompleteRefillMs)` ms; the stored token count is clamped to
`[0, limit]`. -/
def TokenBucketLimiterNoLua.updateBucket (opts : TokenBucketLimiterOpts)
    (s : TBStore) (clientId : String) (nTokens : Rat) (nowTs : Int) :
    TBStore :=
  let expireAt := nowTs + ⌈TokenBucketLimiterNoLua.timeForCompleteRefillMs opts⌉
  let clampedNToken := max (min nTokens (opts.limit : Rat)) 0
  let s1 := vkSetEx s (TokenBucketLimiterNoLua.getNTokensKey opts clientId)
    clampedNToken expireAt
  vkSetEx s1 (TokenBucketLimiterNoLua.getTsKey opts clientId) (nowTs : Rat)
    expireAt

/-- Transaction variant of `registerHit`. -/
def TokenBucketLimiterNoLua.registerHit (opts : TokenBucketLimiterOpts)
    (s : TBStore) (clientId : String) (nowTs : Int) : Int × TBStore :=
  let currentLimit : Rat :=
    (vkGet s nowTs (TokenBucketLimiterNoLua.getNTokensKey opts clientId)).getD
      (opts.limit : Rat)
  let tokensCount := currentLimit +
    TokenBucketLimiterNoLua.calculateRefilledTokenAmountAtTime opts s clientId nowTs
  let valueToUpdate := if (1 : Rat) ≤ tokensCount then tokensCount - 1 else tokensCount
  let s1 := TokenBucketLimiterNoLua.updateBucket opts s clientId valueToUpdate nowTs
  (⌊tokensCount - 1⌋, s1)

/-- Read path shared by both variants (no override in the script class). -/
def TokenBucketLimiterNoLua.getAvailableHits (opts : TokenBucketLimiterOpts)
    (s : TBStore) (clientId : String) (nowTs : Int) : Rat :=
  let tokensLeft : Rat :=
    (vkGet s nowTs (TokenBucketLimiterNoLua.getNTokensKey opts clientId)).getD
      (opts.limit : Rat)
  tokensLeft +
    TokenBucketLimiterNoLua.calculateRefilledTokenAmountAtTime opts s clientId nowTs

/-- Body of the token-bucket Lua script.  Unlike the transaction variant
it caps the refreshed total (not the refill amount) at `limit`, and it
skips the refill entirely unless `elapsed_ms > 0`. -/
def TokenBucketLimiter.luaScript (limit expireMs nowMs refillInterval : Int)
    (refillRate : Rat) (tokensKey tsKey : TokenBucketKey) (s : TBStore) :
    Rat × TBStore :=
  let tokens? := vkGet s nowMs tokensKey
  let lastTs? := vkGet s nowMs tsKey
  let tokensCount : Rat :=
    match tokens?, lastTs? with
    | some tokens, some lastTs =>
        let elapsedMs := (nowMs : Rat) - lastTs
        if 0 < elapsedMs then
          min (limit : Rat) (tokens + elapsedMs / (refillInterval : Rat) * refillRate)
        else tokens
    | _, _ => (limit : Rat)
  let updateValue := if (1 : Rat) ≤ tokensCount then tokensCount - 1 else tokensCount
  let s1 := vkSetEx s tokensKey (max updateValue 0) (nowMs + expireMs)
  let s2 := vkSetEx s1 tsKey (nowMs : Rat) (nowMs + expireMs)
  (tokensCount - 1, s2)

/-- Script variant of `registerHit`: the float comes back as a string,
is re-parsed (`Number`) and floored. -/
def TokenBucketLimiter.registerHit (opts : TokenBucketLimiterOpts)
    (s : TBStore) (clientId : String) (nowTs : Int) : Int × TBStore :=
  let expireMs := ⌈TokenBucketLimiterNoLua.timeForCompleteRefillMs opts⌉
  let r := TokenBucketLimiter.luaScript opts.limit expireMs nowTs
    opts.refillIntervalMs opts.refillRate
    (TokenBucketLimiterNoLua.getNTokensKey opts clientId)
    (TokenBucketLimiterNoLua.getTsKey opts clientId) s
  (⌊r.1⌋, r.2)

/-! ### In-memory variants (`LimiterWindow.ts`,
`FixedWindowInMemoryLimiter.ts`, `FloatingWindowInMemoryLimiter.ts`) -/

/-- The `RateLimiterWindow` value object: a window with a per-client hit
counter map. -/
structure RateLimiterWindow where
  startTs : Int
  duration : Int
  endTs : Int
  clientHitCounter : List (String × Int)
deriving Repr, DecidableEq

/-- `new RateLimiterWindow(startTs, duration)`. -/
def RateLimiterWindow.create (startTs duration : Int) : RateLimiterWindow :=
  { startTs := startTs, duration := duration, endTs := startTs + duration,
    clientHitCounter := [] }

def RateLimiterWindow.isExpiredAt (w : RateLimiterWindow) (ts : Int) : Bool :=
  !(decide (w.startTs ≤ ts) && decide (ts < w.endTs))

/-- In-memory limiter options (no key prefix; `startDate` as epoch ms). -/
structure InMemoryRateLimiterOpts where
  windowSizeMs : Int
  startDate : Int
  limit : Int
deriving Repr, DecidableEq

def inMemoryCalcWindowStartTs (opts : InMemoryRateLimiterOpts) (ts : Int) : Int :=
  windowStartTs opts.startDate opts.windowSizeMs ts

/-- State of a `FixedWindowInMemoryLimiter` instance. -/
structure FixedWindowInMemoryLimiter where
  opts : InMemoryRateLimiterOpts
  window : RateLimiterWindow
deriving Repr, DecidableEq

/-- The constructor, with the construction-time clock value explicit. -/
def FixedWindowInMemoryLimiter.create (opts : InMemoryRateLimiterOpts)
    (ts : Int) : FixedWindowInMemoryLimiter :=
  { opts := opts,
    window := RateLimiterWindow.create (inMemoryCalcWindowStartTs opts ts)
      opts.windowSizeMs }

def FixedWindowInMemoryLimiter.checkWindowExpiration
    (st : FixedWindowInMemoryLimiter) (ts : Int) : FixedWindowInMemoryLimiter :=
  if st.window.isExpiredAt ts then
    { st with
      window := RateLimiterWindow.create (inMemoryCalcWindowStartTs st.opts ts)
        st.opts.windowSizeMs }
  else st

def FixedWindowInMemoryLimiter.registerHit (st : FixedWindowInMemoryLimiter)
    (clientId : String) (ts : Int) : Int × FixedWindowInMemoryLimiter :=
  let st1 := FixedWindowInMemoryLimiter.checkWindowExpiration st ts
  let nHits := (kvGet st1.window.clientHitCounter clientId).getD 0 + 1
  let st2 := { st1 with
    window := { st1.window with
      clientHitCounter := kvSet st1.window.clientHitCounter clientId nHits } }
  (st1.opts.limit - nHits, st2)

def FixedWindowInMemoryLimiter.getAvailableHits (st : FixedWindowInMemoryLimiter)
    (clientId : String) (ts : Int) : Int × FixedWindowInMemoryLimiter :=
  let st1 := FixedWindowInMemoryLimiter.checkWindowExpiration st ts
  let nHits := (kvGet st1.window.clientHitCounter clientId).getD 0
  (st1.opts.limit - nHits, st1)

def FixedWindowInMemoryLimiter.clear (st : FixedWindowInMemoryLimiter)
    (ts : Int) : FixedWindowInMemoryLimiter :=
  { st with
    window := RateLimiterWindow.create (inMemoryCalcWindowStartTs st.opts ts)
      st.opts.windowSizeMs }

/-- State of a `FloatingWindowInMemoryLimiter` instance. -/
structure FloatingWindowInMemoryLimiter where
  opts : InMemoryRateLimiterOpts
  currentWindow : RateLimiterWindow
  previousWindow : RateLimiterWindow
deriving Repr, DecidableEq

/-- The constructor, with the construction-time clock value explicit. -/
def FloatingWindowInMemoryLimiter.create (opts : InMemoryRateLimiterOpts)
    (ts : Int) : FloatingWindowInMemoryLimiter :=
  { opts := opts,
    currentWindow := RateLimiterWindow.create (inMemoryCalcWindowStartTs opts ts)
      opts.windowSizeMs,
    previousWindow := RateLimiterWindow.create
      (inMemoryCalcWindowStartTs opts ts - opts.windowSizeMs) opts.windowSizeMs }

/-- Lazy rotation: when the current window no longer contains `ts`, the
previous window becomes either the old current window (if only one window
boundary was crossed) or a fresh window one size before `ts`. -/
def FloatingWindowInMemoryLimiter.checkWindowExpiration
    (st : FloatingWindowInMemoryLimiter) (ts : Int) :
    FloatingWindowInMemoryLimiter :=
  if st.currentWindow.isExpiredAt ts then
    let oldWindowTs := ts - st.previousWindow.duration
    let isCurrentWindowExpiredAsPrevious := st.currentWindow.isExpiredAt oldWindowTs
    let newPrev :=
      if isCurrentWindowExpiredAsPrevious then
        RateLimiterWindow.create (inMemoryCalcWindowStartTs st.opts oldWindowTs)
          st.opts.windowSizeMs
      else st.currentWindow
    { st with
      previousWindow := newPrev,
      currentWindow := RateLimiterWindow.create
        (inMemoryCalcWindowStartTs st.opts ts) st.opts.windowSizeMs }
  else st

/-- `prevCount * weight + curCount` with the same weight formula as the
store-backed floating limiter. -/
def FloatingWindowInMemoryLimiter.calcApproximation
    (opts : InMemoryRateLimiterOpts) (prevCount curCount : Int) (ts : Int) :
    Rat :=
  let currentWindowStart := inMemoryCalcWindowStartTs opts ts
  let slidingWindowStart := ts - opts.windowSizeMs
  let prevWindowDiff := currentWindowStart - slidingWindowStart
  let weight : Rat := (prevWindowDiff : Rat) / (opts.windowSizeMs : Rat)
  (prevCount : Rat) * weight + (curCount : Rat)

def FloatingWindowInMemoryLimiter.registerHit
    (st : FloatingWindowInMemoryLimiter) (clientId : String) (ts : Int) :
    Int × FloatingWindowInMemoryLimiter :=
  let st1 := FloatingWindowInMemoryLimiter.checkWindowExpiration st ts
  let prevCount := (kvGet st1.previousWindow.clientHitCounter clientId).getD 0
  let curCount := (kvGet st1.currentWindow.clientHitCounter clientId).getD 0 + 1
  let st2 := { st1 with
    currentWindow := { st1.currentWindow with
      clientHitCounter := kvSet st1.currentWindow.clientHitCounter clientId curCount } }
  let approx := FloatingWindowInMemoryLimiter.calcApproximation st1.opts
    prevCount curCount ts
  (⌊(st1.opts.limit : Rat) - approx⌋, st2)

/-- In-memory floating read path: like `registerHit` without the
increment; note that (unlike the store-backed read path) it floors. -/
def FloatingWindowInMemoryLimiter.getAvailableHits
    (st : FloatingWindowInMemoryLimiter) (clientId : String) (ts : Int) :
    Int × FloatingWindowInMemoryLimiter :=
  let st1 := FloatingWindowInMemoryLimiter.checkWindowExpiration st ts
  let prevCount := (kvGet st1.previousWindow.clientHitCounter clientId).getD 0
  let curCount := (kvGet st1.currentWindow.clientHitCounter clientId).getD 0
  let approx := FloatingWindowInMemoryLimiter.calcApproximation st1.opts
    prevCount curCount ts
  (⌊(st1.opts.limit : Rat) - approx⌋, st1)

def FloatingWindowInMemoryLimiter.clear (st : FloatingWindowInMemoryLimiter)
    (ts : Int) : FloatingWindowInMemoryLimiter :=
  { st with
    currentWindow := RateLimiterWindow.create (inMemoryCalcWindowStartTs st.opts ts)
      st.opts.windowSizeMs,
    previousWindow := RateLimiterWindow.create
      (inMemoryCalcWindowStartTs st.opts ts - st.opts.windowSizeMs)
      st.opts.windowSizeMs }

/-! ### Constructor-time option validation (the zod schemas)

A JS value supplied in a (partially filled) options object.  `other`
stands for any value of a type not used by these schemas (booleans,
objects, NaN/Infinity, ...). -/

inductive JsVal where
  | num (q : Rat)
  | date (t : Int)
  | str (s : String)
  | other
deriving Repr, DecidableEq

/-- `z.number().int().positive()`. -/
def zPosInt : JsVal → Bool
  | JsVal.num q => decide (q.den = 1) && decide (0 < q)
  | _ => false

/-- `z.number().positive()`. -/
def zPosNum : JsVal → Bool
  | JsVal.num q => decide (0 < q)
  | _ => false

/-- `z.date()`. -/
def zDate : JsVal → Bool
  | JsVal.date _ => true
  | _ => false

/-- `z.string()`. -/
def zStr : JsVal → Bool
  | JsVal.str _ => true
  | _ => false

/-- How `schema.partialForm().parse` treats one optional field: an absent
field passes, a present field must satisfy the field's check. -/
def checkOptField (chk : JsVal → Bool) : Option JsVal → Bool
  | none => true
  | some v => chk v

/-- The error message raised by a failed zod parse. -/
def zodErrorMsg : String := "zod validation error"

def jsValInt (d : Int) : Option JsVal → Int
  | some (JsVal.num q) => q.num
  | _ => d

def jsValRat (d : Rat) : Option JsVal → Rat
  | some (JsVal.num q) => q
  | _ => d

def jsValDate (d : Int) : Option JsVal → Int
  | some (JsVal.date t) => t
  | _ => d

def jsValStr (d : String) : Option JsVal → String
  | some (JsVal.str s) => s
  | _ => d

/-- A `Partial<FixedWindowLimiterOpts>` object as passed to the
constructor. -/
structure FixedWindowLimiterRawOpts where
  windowSizeMs : Option JsVal
  startDate : Option JsVal
  limit : Option JsVal
  keyPfx : Option JsVal
deriving Repr, DecidableEq

/-- `fixedWindowLimiterOptsSchema.partialForm().parse(opts)` succeeds. -/
def fixedWindowLimiterOptsSchemaCheck (p : FixedWindowLimiterRawOpts) : Bool :=
  checkOptField zPosInt p.windowSizeMs && checkOptField zDate p.startDate &&
    checkOptField zPosInt p.limit && checkOptField zStr p.keyPfx

def FixedWindowLimiterNoLua.defaultOpts : FixedWindowLimiterOpts :=
  { windowSizeMs := 60000, limit := 20, startDate := 0,
    keyPfx := "fixed_window_limiter" }

/-- The `FixedWindowLimiterNoLua` constructor: validate (when an options
object is given), then spread-merge over the defaults. -/
def FixedWindowLimiterNoLua.construct (raw : Option FixedWindowLimiterRawOpts) :
    Except String FixedWindowLimiterOpts :=
  match raw with
  | none => Except.ok FixedWindowLimiterNoLua.defaultOpts
  | some p =>
      if fixedWindowLimiterOptsSchemaCheck p then
        Except.ok
          { windowSizeMs := jsValInt FixedWindowLimiterNoLua.defaultOpts.windowSizeMs p.windowSizeMs,
            startDate := jsValDate FixedWindowLimiterNoLua.defaultOpts.startDate p.startDate,
            limit := jsValInt FixedWindowLimiterNoLua.defaultOpts.limit p.limit,
            keyPfx := jsValStr FixedWindowLimiterNoLua.defaultOpts.keyPfx p.keyPfx }
      else Except.error zodErrorMsg

structure FloatingWindowLimiterRawOpts where
  windowSizeMs : Option JsVal
  startDate : Option JsVal
  limit : Option JsVal
  keyPfx : Option JsVal
deriving Repr, DecidableEq

def floatingWindowLimiterOptsSchemaCheck (p : FloatingWindowLimiterRawOpts) : Bool :=
  checkOptField zPosInt p.windowSizeMs && checkOptField zDate p.startDate &&
    checkOptField zPosInt p.limit && checkOptField zStr p.keyPfx

def FloatingWindowLimiterNoLua.defaultOpts : FloatingWindowLimiterOpts :=
  { windowSizeMs := 60000, limit := 1, startDate := 0,
    keyPfx := "floating_window_limiter" }

def FloatingWindowLimiterNoLua.construct (raw : Option FloatingWindowLimiterRawOpts) :
    Except String FloatingWindowLimiterOpts :=
  match raw with
  | none => Except.ok FloatingWindowLimiterNoLua.defaultOpts
  | some p =>
      if floatingWindowLimiterOptsSchemaCheck p then
        Except.ok
          { windowSizeMs := jsValInt FloatingWindowLimiterNoLua.defaultOpts.windowSizeMs p.windowSizeMs,
            startDate := jsValDate FloatingWindowLimiterNoLua.defaultOpts.startDate p.startDate,
            limit := jsValInt FloatingWindowLimiterNoLua.defaultOpts.limit p.limit,
            keyPfx := jsValStr FloatingWindowLimiterNoLua.defaultOpts.keyPfx p.keyPfx }
      else Except.error zodErrorMsg

structure SlidingWindowLimiterRawOpts where
  windowSizeMs : Option JsVal
  limit : Option JsVal
  keyPfx : Option JsVal
deriving Repr, DecidableEq

def slidingWindowLimiterOptsSchemaCheck (p : SlidingWindowLimiterRawOpts) : Bool :=
  checkOptField zPosInt p.windowSizeMs && checkOptField zPosInt p.limit &&
    checkOptField zStr p.keyPfx

def SlidingWindowLimiterNoLua.defaultOpts : SlidingWindowLimiterOpts :=
  { windowSizeMs := 60000, limit := 20, keyPfx := "sliding_window_limiter" }

def SlidingWindowLimiterNoLua.construct (raw : Option SlidingWindowLimiterRawOpts) :
    Except String SlidingWindowLimiterOpts :=
  match raw with
  | none => Except.ok SlidingWindowLimiterNoLua.defaultOpts
  | some p =>
      if slidingWindowLimiterOptsSchemaCheck p then
        Except.ok
          { windowSizeMs := jsValInt SlidingWindowLimiterNoLua.defaultOpts.windowSizeMs p.windowSizeMs,
            limit := jsValInt SlidingWindowLimiterNoLua.defaultOpts.limit p.limit,
            keyPfx := jsValStr SlidingWindowLimiterNoLua.defaultOpts.keyPfx p.keyPfx }
      else Except.error zodErrorMsg

structure TokenBucketLimiterRawOpts where
  limit : Option JsVal
  refillIntervalMs : Option JsVal
  refillRate : Option JsVal
  keyPfx : Option JsVal
deriving Repr, DecidableEq

def tokenBucketLimiterOptsSchemaCheck (p : TokenBucketLimiterRawOpts) : Bool :=
  checkOptField zPosInt p.limit && checkOptField zPosInt p.refillIntervalMs &&
    checkOptField zPosNum p.refillRate && checkOptField zStr p.keyPfx

def TokenBucketLimiterNoLua.defaultOpts : TokenBucketLimiterOpts :=
  { limit := 20, refillIntervalMs := 3000, refillRate := 1,
    keyPfx := "token_bucket_limiter" }

def TokenBucketLimiterNoLua.construct (raw : Option TokenBucketLimiterRawOpts) :
    Except String TokenBucketLimiterOpts :=
  match raw with
  | none => Except.ok TokenBucketLimiterNoLua.defaultOpts
  | some p =>
      if tokenBucketLimiterOptsSchemaCheck p then
        Except.ok
          { limit := jsValInt TokenBucketLimiterNoLua.defaultOpts.limit p.limit,
            refillIntervalMs := jsValInt TokenBucketLimiterNoLua.defaultOpts.refillIntervalMs p.refillIntervalMs,
            refillRate := jsValRat TokenBucketLimiterNoLua.defaultOpts.refillRate p.refillRate,
            keyPfx := jsValStr TokenBucketLimiterNoLua.defaultOpts.keyPfx p.keyPfx }
      else Except.error zodErrorMsg

structure InMemoryRateLimiterRawOpts where
  windowSizeMs : Option JsVal
  startDate : Option JsVal
  limit : Option JsVal
deriving Repr, DecidableEq

def inMemoryRateLimiterOptsSchemaCheck (p : InMemoryRateLimiterRawOpts) : Bool :=
  checkOptField zPosInt p.windowSizeMs && checkOptField zDate p.startDate &&
    checkOptField zPosInt p.limit

def inMemoryRateLimiterOptsDefaults : InMemoryRateLimiterOpts :=
  { windowSizeMs := 60000, limit := 20, startDate := 0 }

/-- The shared constructor validation of both in-memory limiters. -/
def inMemoryRateLimiterConstructOpts (raw : Option InMemoryRateLimiterRawOpts) :
    Except String InMemoryRateLimiterOpts :=
  match raw with
  | none => Except.ok inMemoryRateLimiterOptsDefaults
  | some p =>
      if inMemoryRateLimiterOptsSchemaCheck p then
        Except.ok
          { windowSizeMs := jsValInt inMemoryRateLimiterOptsDefaults.windowSizeMs p.windowSizeMs,
            startDate := jsValDate inMemoryRateLimiterOptsDefaults.startDate p.startDate,
            limit := jsValInt inMemoryRateLimiterOptsDefaults.limit p.limit }
      else Except.error zodErrorMsg

/-! ### Script execution result handling (the wrappers around
`invokeScript`) -/

/-- A scalar coming back from an atomically executed script: a RESP
integer, a bulk string, or nil. -/
inductive ScriptValue where
  | vInt (n : Int)
  | vStr (s : String)
  | vNil
deriving Repr, DecidableEq

/-- The `TypeError` message text used by the three window wrappers. -/
def typeErrorMsg : String := "Unexpected script execution result type"

/-- Fixed-window wrapper postprocessing: `typeof result !== "number"`
throws; otherwise `Math.max(result, -1)`. -/
def FixedWindowLimiter.handleScriptResult : ScriptValue → Except String Int
  | ScriptValue.vInt n => Except.ok (max n (-1))
  | _ => Except.error typeErrorMsg

/-- Sliding-window wrapper postprocessing: `typeof` guard, result used
as-is. -/
def SlidingWindowLimiter.handleScriptResult : ScriptValue → Except String Int
  | ScriptValue.vInt n => Except.ok n
  | _ => Except.error typeErrorMsg

/-- Floating-window wrapper postprocessing: `typeof` guard, then
`Math.floor` (identity on the integral script result). -/
def FloatingWindowLimiter.handleScriptResult : ScriptValue → Except String Int
  | ScriptValue.vInt n => Except.ok n
  | _ => Except.error typeErrorMsg

/-- Value of one decimal digit character. -/
def digitVal (c : Char) : Nat := c.toNat - 48

def natFromDigits (cs : List Char) : Nat :=
  cs.foldl (fun acc c => 10 * acc + digitVal c) 0

/-- JS `Number(string)` on an unsigned decimal literal
(`digits`, `digits.digits`, `.digits`); anything else is NaN (`none`). -/
def parseJsUnsigned (cs : List Char) : Option Rat :=
  let intPart := cs.takeWhile Char.isDigit
  let rest := cs.dropWhile Char.isDigit
  match rest with
  | [] => if intPart.isEmpty then none else some (natFromDigits intPart : Rat)
  | c :: frac =>
      if c = '.' && frac.all Char.isDigit && !(intPart.isEmpty && frac.isEmpty) then
        some ((natFromDigits intPart : Rat) +
          (natFromDigits frac : Rat) / ((10 : Rat) ^ frac.length))
      else none

/-- JS `Number(string)`: empty string is 0, decimal literals parse,
anything else is NaN (`none`).  (The exponent/hex forms of the JS grammar
are irrelevant here and also map to `none`.) -/
def parseJsNumber (s : String) : Option Rat :=
  if s.isEmpty then some 0
  else
    match s.toList with
    | '-' :: cs => (parseJsUnsigned cs).map (fun q => -q)
    | cs => parseJsUnsigned cs

/-- JS `Number(x)` on a script result (`Number(null) = 0`); `none` models
NaN. -/
def jsNumberOfScriptValue : ScriptValue → Option Rat
  | ScriptValue.vInt n => some (n : Rat)
  | ScriptValue.vStr s => parseJsNumber s
  | ScriptValue.vNil => some 0

/-- JS `Math.floor` on a possibly-NaN number (`Math.floor(NaN)` is NaN). -/
def mathFloorJs : Option Rat → Option Rat :=
  Option.map (fun q => ((⌊q⌋ : Int) : Rat))

/-- Token-bucket wrapper postprocessing: `result = Number(result);
return Math.floor(result)` — no shape check, never throws. -/
def TokenBucketLimiter.handleScriptResult (v : ScriptValue) :
    Except String (Option Rat) :=
  Except.ok (mathFloorJs (jsNumberOfScriptValue v))

/-- The caller-side admission test `remaining < 0` (false on NaN, as in
JS). -/
def jsIsLimited : Option Rat → Bool
  | none => false
  | some q => decide (q < 0)

/-! ### Sequential runs -/

/-- Sequentially run one limiter operation over a list of inputs,
collecting the results. -/
def runCalls {σ ι ρ : Type} (step : σ → ι → ρ × σ) : σ → List ι → List ρ × σ
  | s, [] => ([], s)
  | s, i :: is =>
      let r := step s i
      let rest := runCalls step r.2 is
      (r.1 :: rest.1, rest.2)

theorem kvSet_kvSet {κ β : Type} [DecidableEq κ] (s : List (κ × β)) (k : κ)
    (e1 e2 : β) : kvSet (kvSet s k e1) k e2 = kvSet s k e2 := by
  induction s with
  | nil => simp [kvSet]
  | cons hd tl ih =>
      obtain ⟨k1, v1⟩ := hd
      by_cases h : k1 = k <;> simp [kvSet, h, ih]

/-! ### Fixed-window step and run lemmas -/

/-- The single-client key for a window starting at `c`. -/
def fwKey (opts : FixedWindowLimiterOpts) (clientId : String) (c : Int) :
    WindowKey :=
  { keyPfx := opts.keyPfx, startTs := c, clientId := clientId }

theorem fixedNoLua_step_live (opts : FixedWindowLimiterOpts) (clientId : String)
    {now c j : Int} (hW : 0 < opts.windowSizeMs)
    (hc : FixedWindowLimiterNoLua.calcCurrentWindowStartTs opts now = c) :
    FixedWindowLimiterNoLua.registerHit opts
      [(fwKey opts clientId c, ⟨j, some (c + opts.windowSizeMs)⟩)] clientId now =
    (opts.limit - (j + 1),
      [(fwKey opts clientId c, ⟨j + 1, some (c + opts.windowSizeMs)⟩)]) := by
  have hlt : now < c + opts.windowSizeMs := by
    have := @lt_windowStartTs_add (opts.startDate) (opts.windowSizeMs) (now) hW
    unfold FixedWindowLimiterNoLua.calcCurrentWindowStartTs at hc
    omega
  simp [FixedWindowLimiterNoLua.registerHit, FixedWindowLimiterNoLua.getClientKey,
    hc, fwKey, vkIncr, vkPexpireAt, liveGet, kvGet, entryLive, hlt, kvSet]

theorem fixedNoLua_step_fresh (opts : FixedWindowLimiterOpts) (clientId : String)
    {now c : Int}
    (hc : FixedWindowLimiterNoLua.calcCurrentWindowStartTs opts now = c) :
    FixedWindowLimiterNoLua.registerHit opts [] clientId now =
    (opts.limit - 1,
      [(fwKey opts clientId c, ⟨1, some (c + opts.windowSizeMs)⟩)]) := by
  simp [FixedWindowLimiterNoLua.registerHit, FixedWindowLimiterNoLua.getClientKey,
    hc, fwKey, vkIncr, vkPexpireAt, liveGet, kvGet, entryLive, kvSet]

/-- Running the transaction-variant `registerHit` over any list of times
that all fall in the window starting at `c`, from a live counter at `j`:
the i-th result is `limit - (j+i+1)` and the counter ends at
`j + length`. -/
theorem fixedNoLua_run_live (opts : FixedWindowLimiterOpts) (clientId : String)
    {c : Int} (hW : 0 < opts.windowSizeMs) (j : Int) (times : List Int)
    (h : ∀ t ∈ times, FixedWindowLimiterNoLua.calcCurrentWindowStartTs opts t = c) :
    runCalls (fun s t => FixedWindowLimiterNoLua.registerHit opts s clientId t)
      [(fwKey opts clientId c, ⟨j, some (c + opts.windowSizeMs)⟩)] times =
    ((List.range times.length).map (fun i : Nat => opts.limit - (j + (i : Int) + 1)),
      [(fwKey opts clientId c, ⟨j + times.length, some (c + opts.windowSizeMs)⟩)]) := by
  induction times generalizing j with
  | nil => simp [runCalls]
  | cons t ts ih =>
      have hc : FixedWindowLimiterNoLua.calcCurrentWindowStartTs opts t = c :=
        h t (by simp)
      have hrest : ∀ t2 ∈ ts, FixedWindowLimiterNoLua.calcCurrentWindowStartTs opts t2 = c :=
        fun t2 ht2 => h t2 (by simp [ht2])
      simp only [runCalls, fixedNoLua_step_live opts clientId hW hc, ih (j + 1) hrest,
        List.length_cons, List.range_succ_eq_map, List.map_cons, List.map_map,
        Prod.mk.injEq, List.cons.injEq]
      refine ⟨⟨by norm_num, ?_⟩, ?_⟩
      · apply List.map_congr_left
        intro i _
        simp only [Function.comp_apply, Nat.succ_eq_add_one]
        push_cast
        ring
      · push_cast
        ring_nf
        simp

/-- Same, starting from an empty store (fresh client). -/
theorem fixedNoLua_run_fresh (opts : FixedWindowLimiterOpts) (clientId : String)
    {c : Int} (hW : 0 < opts.windowSizeMs) (times : List Int) (hne : times ≠ [])
    (h : ∀ t ∈ times, FixedWindowLimiterNoLua.calcCurrentWindowStartTs opts t = c) :
    runCalls (fun s t => FixedWindowLimiterNoLua.registerHit opts s clientId t)
      [] times =
    ((List.range times.length).map (fun i : Nat => opts.limit - ((i : Int) + 1)),
      [(fwKey opts clientId c, ⟨times.length, some (c + opts.windowSizeMs)⟩)]) := by
  cases times with
  | nil => simp at hne
  | cons t ts =>
      have hc := h t (by simp)
      have hrest : ∀ t2 ∈ ts, FixedWindowLimiterNoLua.calcCurrentWindowStartTs opts t2 = c :=
        fun t2 ht2 => h t2 (by simp [ht2])
      simp only [runCalls, fixedNoLua_step_fresh opts clientId hc,
        fixedNoLua_run_live opts clientId hW 1 ts hrest, List.length_cons,
        List.range_succ_eq_map, List.map_cons, List.map_map, List.cons.injEq,
        Prod.mk.injEq]
      refine ⟨⟨by norm_num, ?_⟩, ?_⟩
      · apply List.map_congr_left
        intro i _
        simp only [Function.comp_apply, Nat.succ_eq_add_one]
        push_cast
        ring
      · push_cast
        ring_nf
        simp

theorem fixedLua_step_live (opts : FixedWindowLimiterOpts) (clientId : String)
    {now c j : Int} (hW : 0 < opts.windowSizeMs) (hj : j ≠ 0)
    (hc : FixedWindowLimiterNoLua.calcCurrentWindowStartTs opts now = c) :
    FixedWindowLimiter.registerHit opts
      [(fwKey opts clientId c, ⟨j, some (c + opts.windowSizeMs)⟩)] clientId now =
    (max (opts.limit - (j + 1)) (-1),
      [(fwKey opts clientId c, ⟨j + 1, some (c + opts.windowSizeMs)⟩)]) := by
  have hlt : now < c + opts.windowSizeMs := by
    have := @lt_windowStartTs_add (opts.startDate) (opts.windowSizeMs) (now) hW
    unfold FixedWindowLimiterNoLua.calcCurrentWindowStartTs at hc
    omega
  have hj1 : ¬(j + 1 = 1) := by omega
  simp [FixedWindowLimiter.registerHit, FixedWindowLimiter.luaScript,
    FixedWindowLimiterNoLua.getClientKey, hc, fwKey, vkIncr, vkPexpireAt,
    liveGet, kvGet, entryLive, hlt, kvSet, hj1]

theorem fixedLua_step_fresh (opts : FixedWindowLimiterOpts) (clientId : String)
    {now c : Int}
    (hc : FixedWindowLimiterNoLua.calcCurrentWindowStartTs opts now = c) :
    FixedWindowLimiter.registerHit opts [] clientId now =
    (max (opts.limit - 1) (-1),
      [(fwKey opts clientId c, ⟨1, some (c + opts.windowSizeMs)⟩)]) := by
  simp [FixedWindowLimiter.registerHit, FixedWindowLimiter.luaScript,
    FixedWindowLimiterNoLua.getClientKey, hc, fwKey, vkIncr, vkPexpireAt,
    liveGet, kvGet, entryLive, kvSet]

/-- Script-variant run from a live counter at `j ≥ 1`: the counter grows
exactly as in the transaction variant, but each result is clamped below
at `-1`. -/
theorem fixedLua_run_live (opts : FixedWindowLimiterOpts) (clientId : String)
    {c : Int} (hW : 0 < opts.windowSizeMs) (j : Int) (hj : 1 ≤ j)
    (times : List Int)
    (h : ∀ t ∈ times, FixedWindowLimiterNoLua.calcCurrentWindowStartTs opts t = c) :
    runCalls (fun s t => FixedWindowLimiter.registerHit opts s clientId t)
      [(fwKey opts clientId c, ⟨j, some (c + opts.windowSizeMs)⟩)] times =
    ((List.range times.length).map
        (fun i : Nat => max (opts.limit - (j + (i : Int) + 1)) (-1)),
      [(fwKey opts clientId c, ⟨j + times.length, some (c + opts.windowSizeMs)⟩)]) := by
  induction times generalizing j with
  | nil => simp [runCalls]
  | cons t ts ih =>
      have hc : FixedWindowLimiterNoLua.calcCurrentWindowStartTs opts t = c :=
        h t (by simp)
      have hrest : ∀ t2 ∈ ts, FixedWindowLimiterNoLua.calcCurrentWindowStartTs opts t2 = c :=
        fun t2 ht2 => h t2 (by simp [ht2])
      have hstep := fixedLua_step_live (j := j) opts clientId hW (by omega) hc
      simp only [runCalls, hstep,
        ih (j + 1) (by omega) hrest, List.length_cons, List.range_succ_eq_map,
        List.map_cons, List.map_map, Prod.mk.injEq, List.cons.injEq]
      refine ⟨⟨by norm_num, ?_⟩, ?_⟩
      · apply List.map_congr_left
        intro i _
        simp only [Function.comp_apply, Nat.succ_eq_add_one]
        push_cast
        ring_nf
      · push_cast
        ring_nf
        simp

/-- Script-variant run from an empty store. -/
theorem fixedLua_run_fresh (opts : FixedWindowLimiterOpts) (clientId : String)
    {c : Int} (hW : 0 < opts.windowSizeMs) (times : List Int) (hne : times ≠ [])
    (h : ∀ t ∈ times, FixedWindowLimiterNoLua.calcCurrentWindowStartTs opts t = c) :
    runCalls (fun s t => FixedWindowLimiter.registerHit opts s clientId t)
      [] times =
    ((List.range times.length).map
        (fun i : Nat => max (opts.limit - ((i : Int) + 1)) (-1)),
      [(fwKey opts clientId c, ⟨times.length, some (c + opts.windowSizeMs)⟩)]) := by
  cases times with
  | nil => simp at hne
  | cons t ts =>
      have hc := h t (by simp)
      have hrest : ∀ t2 ∈ ts, FixedWindowLimiterNoLua.calcCurrentWindowStartTs opts t2 = c :=
        fun t2 ht2 => h t2 (by simp [ht2])
      simp only [runCalls, fixedLua_step_fresh opts clientId hc,
        fixedLua_run_live opts clientId hW 1 (by omega) ts hrest, List.length_cons,
        List.range_succ_eq_map, List.map_cons, List.map_map, List.cons.injEq,
        Prod.mk.injEq]
      refine ⟨⟨by norm_num, ?_⟩, ?_⟩
      · apply List.map_congr_left
        intro i _
        simp only [Function.comp_apply, Nat.succ_eq_add_one]
        push_cast
        ring_nf
      · push_cast
        ring_nf
        simp

/-! ### Shared concrete test data for witnesses and counterexamples -/

def testPfx : String := "p"

def testClient : String := "c"

def cexFixedOpts : FixedWindowLimiterOpts :=
  { windowSizeMs := 10, startDate := 0, limit := 1, keyPfx := testPfx }

/-! ### Claim C3 -/

/-- C3 (amended): within one window the stored fixed-window counter is
never clamped — after `limit + k` hits it equals `limit + k` in both
variants — and the transaction variant's `(limit+k)`-th `registerHit`
returns `-k` for every `k ≥ 1`; but the script variant clamps its return
value with `Math.max(·, -1)` and returns `-1` (not `-k`) for every
`k ≥ 1`. -/
theorem fixedWindow_overLimit_amended (opts : FixedWindowLimiterOpts)
    (clientId : String) {c k : Int} (times : List Int)
    (hW : 0 < opts.windowSizeMs) (hlim : 0 < opts.limit)
    (h : ∀ t ∈ times, FixedWindowLimiterNoLua.calcCurrentWindowStartTs opts t = c)
    (hk : 1 ≤ k) (hlen : (times.length : Int) = opts.limit + k) :
    (runCalls (fun s t => FixedWindowLimiterNoLua.registerHit opts s clientId t)
        [] times).1[times.length - 1]? = some (-k) ∧
    (runCalls (fun s t => FixedWindowLimiter.registerHit opts s clientId t)
        [] times).1[times.length - 1]? = some (-1) ∧
    (runCalls (fun s t => FixedWindowLimiterNoLua.registerHit opts s clientId t)
        [] times).2 =
      [(fwKey opts clientId c, ⟨opts.limit + k, some (c + opts.windowSizeMs)⟩)] ∧
    (runCalls (fun s t => FixedWindowLimiter.registerHit opts s clientId t)
        [] times).2 =
      [(fwKey opts clientId c, ⟨opts.limit + k, some (c + opts.windowSizeMs)⟩)] := by
  have hne : times ≠ [] := by
    intro h0
    rw [h0] at hlen
    simp at hlen
    omega
  have h1 := fixedNoLua_run_fresh opts clientId hW times hne h
  have h2 := fixedLua_run_fresh opts clientId hW times hne h
  have hlt : times.length - 1 < times.length := by
    have : 0 < times.length := List.length_pos.2 hne
    omega
  have hcast : ((times.length - 1 : ℕ) : Int) = opts.limit + k - 1 := by
    have : 0 < times.length := List.length_pos.2 hne
    push_cast [Nat.cast_sub this]
    omega
  refine ⟨?_, ?_, ?_, ?_⟩
  · rw [h1]
    simp only [List.getElem?_map, List.getElem?_range, hlt, if_pos,
      Option.map_some']
    rw [Option.some.injEq]
    omega
  · rw [h2]
    simp only [List.getElem?_map, List.getElem?_range, hlt, if_pos,
      Option.map_some']
    rw [Option.some.injEq]
    have heq : opts.limit - (((times.length - 1 : ℕ) : Int) + 1) = -k := by omega
    rw [heq]
    omega
  · rw [h1, hlen]
  · rw [h2, hlen]

/-- C3 witness: `limit = 1`, three hits at time 0 in the window starting
at 0; the third call (`k = 2`) returns `-2` in the transaction variant
and `-1` in the script variant, and both leave the counter at 3. -/
theorem fixedWindow_overLimit_amended_witness :
    (runCalls (fun s t => FixedWindowLimiterNoLua.registerHit cexFixedOpts s testClient t)
        [] [0, 0, 0]).1[2]? = some (-2) ∧
    (runCalls (fun s t => FixedWindowLimiter.registerHit cexFixedOpts s testClient t)
        [] [0, 0, 0]).1[2]? = some (-1) ∧
    (runCalls (fun s t => FixedWindowLimiterNoLua.registerHit cexFixedOpts s testClient t)
        [] [0, 0, 0]).2 =
      [(fwKey cexFixedOpts testClient 0, ⟨3, some 10⟩)] ∧
    (runCalls (fun s t => FixedWindowLimiter.registerHit cexFixedOpts s testClient t)
        [] [0, 0, 0]).2 =
      [(fwKey cexFixedOpts testClient 0, ⟨3, some 10⟩)] :=
  fixedWindow_overLimit_amended cexFixedOpts testClient (c := 0) (k := 2)
    [0, 0, 0] (by decide) (by decide) (by decide) (by decide) (by decide)

/-- C3 counterexample: with `limit = 1` and `k = 2`, the script variant's
third `registerHit` in the same window returns `-1`, not `-2` as the
claim requires of both store-backed variants. -/
theorem fixedWindow_overLimit_counterexample :
    (runCalls (fun s t => FixedWindowLimiter.registerHit cexFixedOpts s testClient t)
        [] [0, 0, 0]).1 = [0, -1, -1] ∧ (-1 : Int) ≠ -2 := by
  constructor
  · decide
  · decide

/-! ### Claim C8 -/

/-- C8 (amended): the fixed-window `getAvailableHits` is read-only (its
embedding is a pure function of the store: the code issues a single
`GET`) and returns `limit - count` (or `limit` when the counter is
absent), which never exceeds `limit` on stores reached by `registerHit`
runs — but it is NOT always ≥ 0: once the counter exceeds `limit`
(reachable, since the counter is unclamped) the result is negative. -/
theorem fixedWindow_getAvailableHits_amended (opts : FixedWindowLimiterOpts)
    (clientId : String) {c : Int} (times : List Int) (tq : Int)
    (hW : 0 < opts.windowSizeMs) (hne : times ≠ [])
    (h : ∀ t ∈ times, FixedWindowLimiterNoLua.calcCurrentWindowStartTs opts t = c)
    (htq : FixedWindowLimiterNoLua.calcCurrentWindowStartTs opts tq = c) :
    FixedWindowLimiterNoLua.getAvailableHits opts
        (runCalls (fun s t => FixedWindowLimiterNoLua.registerHit opts s clientId t)
          [] times).2 clientId tq =
      opts.limit - times.length ∧
    FixedWindowLimiterNoLua.getAvailableHits opts
        (runCalls (fun s t => FixedWindowLimiterNoLua.registerHit opts s clientId t)
          [] times).2 clientId tq ≤ opts.limit ∧
    FixedWindowLimiterNoLua.getAvailableHits opts [] clientId tq = opts.limit := by
  have h1 := fixedNoLua_run_fresh opts clientId hW times hne h
  have hlt : tq < c + opts.windowSizeMs := by
    have := @lt_windowStartTs_add (opts.startDate) (opts.windowSizeMs) (tq) hW
    unfold FixedWindowLimiterNoLua.calcCurrentWindowStartTs at htq
    omega
  have hmain : FixedWindowLimiterNoLua.getAvailableHits opts
      (runCalls (fun s t => FixedWindowLimiterNoLua.registerHit opts s clientId t)
        [] times).2 clientId tq = opts.limit - times.length := by
    rw [h1]
    simp [FixedWindowLimiterNoLua.getAvailableHits,
      FixedWindowLimiterNoLua.getClientKey, htq, fwKey, vkGet, liveGet, kvGet,
      entryLive, hlt]
  refine ⟨hmain, ?_, ?_⟩
  · rw [hmain]
    omega
  · simp [FixedWindowLimiterNoLua.getAvailableHits, vkGet, liveGet, kvGet]

/-- C8 witness: limit 1, two hits at time 0; `getAvailableHits` then
reads `1 - 2 = -1` (and a fresh client reads `limit`). -/
theorem fixedWindow_getAvailableHits_amended_witness :
    FixedWindowLimiterNoLua.getAvailableHits cexFixedOpts
        (runCalls (fun s t => FixedWindowLimiterNoLua.registerHit cexFixedOpts s testClient t)
          [] [0, 0]).2 testClient 0 = 1 - (2 : Nat) ∧
    FixedWindowLimiterNoLua.getAvailableHits cexFixedOpts
        (runCalls (fun s t => FixedWindowLimiterNoLua.registerHit cexFixedOpts s testClient t)
          [] [0, 0]).2 testClient 0 ≤ 1 ∧
    FixedWindowLimiterNoLua.getAvailableHits cexFixedOpts [] testClient 0 = 1 :=
  fixedWindow_getAvailableHits_amended cexFixedOpts testClient (c := 0) [0, 0] 0
    (by decide) (by decide) (by decide) (by decide)

/-- C8 counterexample: with `limit = 1`, after two `registerHit` calls in
one window `getAvailableHits` returns `-1`, violating the claimed
`getAvailableHits(clientId) ≥ 0` for reachable stores. -/
theorem fixedWindow_getAvailableHits_counterexample :
    FixedWindowLimiterNoLua.getAvailableHits cexFixedOpts
        (runCalls (fun s t => FixedWindowLimiterNoLua.registerHit cexFixedOpts s testClient t)
          [] [0, 0]).2 testClient 0 = -1 ∧
    ¬(0 ≤ (-1 : Int)) := by
  constructor
  · decide
  · decide

/-! ### Floating-window step and run lemmas -/

theorem intCast_floor_eq (n : Int) : ⌊((n : Rat))⌋ = n := Int.floor_intCast n

theorem luaToRespInt_intCast (n : Int) : luaToRespInt ((n : Rat)) = n := by
  unfold luaToRespInt
  simp [Rat.intCast_num, Rat.intCast_den, Int.tdiv_one]

theorem floatingNoLua_step_noprev (opts : FloatingWindowLimiterOpts)
    (clientId : String) {now c j : Int} (hW : 0 < opts.windowSizeMs)
    (hc : FloatingWindowLimiterNoLua.calcFixedWindowStartTs opts now = c) :
    FloatingWindowLimiterNoLua.registerHit opts
      [(FloatingWindowLimiterNoLua.getClientWindowKey opts clientId c,
        ⟨j, some (c + opts.windowSizeMs)⟩)] clientId now =
    (opts.limit - (j + 1),
      [(FloatingWindowLimiterNoLua.getClientWindowKey opts clientId c,
        ⟨j + 1, some (c + opts.windowSizeMs)⟩)]) := by
  have hlt : now < c + opts.windowSizeMs := by
    have := @lt_windowStartTs_add (opts.startDate) (opts.windowSizeMs) (now) hW
    unfold FloatingWindowLimiterNoLua.calcFixedWindowStartTs at hc
    omega
  have hne : FloatingWindowLimiterNoLua.getClientWindowKey opts clientId c ≠
      FloatingWindowLimiterNoLua.getClientWindowKey opts clientId
        (c - opts.windowSizeMs) := by
    simp [FloatingWindowLimiterNoLua.getClientWindowKey]
    omega
  unfold FloatingWindowLimiterNoLua.registerHit
  rw [hc]
  simp [vkGet, liveGet, kvGet, vkIncr, vkPexpireAt, kvSet, entryLive, hne,
    hne.symm, hlt]
  have heq : ((opts.limit : Rat)) - ((j : Rat) + 1) =
      ((opts.limit - (j + 1) : Int) : Rat) := by
    push_cast
    ring
  rw [heq, intCast_floor_eq]

theorem floatingNoLua_step_fresh (opts : FloatingWindowLimiterOpts)
    (clientId : String) {now c : Int}
    (hc : FloatingWindowLimiterNoLua.calcFixedWindowStartTs opts now = c) :
    FloatingWindowLimiterNoLua.registerHit opts [] clientId now =
    (opts.limit - 1,
      [(FloatingWindowLimiterNoLua.getClientWindowKey opts clientId c,
        ⟨1, some (c + opts.windowSizeMs)⟩)]) := by
  unfold FloatingWindowLimiterNoLua.registerHit
  rw [hc]
  simp [vkGet, liveGet, kvGet, vkIncr, vkPexpireAt, kvSet, entryLive]

theorem floatingLua_step_noprev (opts : FloatingWindowLimiterOpts)
    (clientId : String) {now c j : Int} (hW : 0 < opts.windowSizeMs) (hj : j ≠ 0)
    (hc : FloatingWindowLimiterNoLua.calcFixedWindowStartTs opts now = c) :
    FloatingWindowLimiter.registerHit opts
      [(FloatingWindowLimiterNoLua.getClientWindowKey opts clientId c,
        ⟨j, some (c + opts.windowSizeMs)⟩)] clientId now =
    (opts.limit - (j + 1),
      [(FloatingWindowLimiterNoLua.getClientWindowKey opts clientId c,
        ⟨j + 1, some (c + opts.windowSizeMs)⟩)]) := by
  have hlt : now < c + opts.windowSizeMs := by
    have := @lt_windowStartTs_add (opts.startDate) (opts.windowSizeMs) (now) hW
    unfold FloatingWindowLimiterNoLua.calcFixedWindowStartTs at hc
    omega
  have hne : FloatingWindowLimiterNoLua.getClientWindowKey opts clientId c ≠
      FloatingWindowLimiterNoLua.getClientWindowKey opts clientId
        (c - opts.windowSizeMs) := by
    simp [FloatingWindowLimiterNoLua.getClientWindowKey]
    omega
  have hj1 : ¬(j + 1 = 1) := by omega
  unfold FloatingWindowLimiter.registerHit FloatingWindowLimiter.luaScript
  rw [hc]
  simp [vkGet, liveGet, kvGet, vkIncr, vkPexpireAt, kvSet, entryLive, hne,
    hne.symm, hlt, hj1]
  have heq : ((opts.limit : Rat)) - ((j : Rat) + 1) =
      ((opts.limit - (j + 1) : Int) : Rat) := by
    push_cast
    ring
  rw [heq, luaToRespInt_intCast]

theorem floatingLua_step_fresh (opts : FloatingWindowLimiterOpts)
    (clientId : String) {now c : Int}
    (hc : FloatingWindowLimiterNoLua.calcFixedWindowStartTs opts now = c) :
    FloatingWindowLimiter.registerHit opts [] clientId now =
    (opts.limit - 1,
      [(FloatingWindowLimiterNoLua.getClientWindowKey opts clientId c,
        ⟨1, some (c + opts.windowSizeMs)⟩)]) := by
  unfold FloatingWindowLimiter.registerHit FloatingWindowLimiter.luaScript
  rw [hc]
  simp [vkGet, liveGet, kvGet, vkIncr, vkPexpireAt, kvSet, entryLive]
  have heq : ((opts.limit : Rat)) - (1 : Rat) =
      ((opts.limit - 1 : Int) : Rat) := by
    push_cast
    ring
  rw [heq, luaToRespInt_intCast]

/-- Transaction-variant floating-window run for a fresh client (the
previous-window counter stays absent, so every result is exact). -/
theorem floatingNoLua_run_fresh (opts : FloatingWindowLimiterOpts)
    (clientId : String) {c : Int} (hW : 0 < opts.windowSizeMs)
    (times : List Int) (hne : times ≠ [])
    (h : ∀ t ∈ times, FloatingWindowLimiterNoLua.calcFixedWindowStartTs opts t = c) :
    runCalls (fun s t => FloatingWindowLimiterNoLua.registerHit opts s clientId t)
      [] times =
    ((List.range times.length).map (fun i : Nat => opts.limit - ((i : Int) + 1)),
      [(FloatingWindowLimiterNoLua.getClientWindowKey opts clientId c,
        ⟨times.length, some (c + opts.windowSizeMs)⟩)]) := by
  have hlive : ∀ (j : Int) (ts : List Int),
      (∀ t ∈ ts, FloatingWindowLimiterNoLua.calcFixedWindowStartTs opts t = c) →
      runCalls (fun s t => FloatingWindowLimiterNoLua.registerHit opts s clientId t)
        [(FloatingWindowLimiterNoLua.getClientWindowKey opts clientId c,
          ⟨j, some (c + opts.windowSizeMs)⟩)] ts =
      ((List.range ts.length).map (fun i : Nat => opts.limit - (j + (i : Int) + 1)),
        [(FloatingWindowLimiterNoLua.getClientWindowKey opts clientId c,
          ⟨j + ts.length, some (c + opts.windowSizeMs)⟩)]) := by
    intro j ts hts
    induction ts generalizing j with
    | nil => simp [runCalls]
    | cons t ts2 ih =>
        have hc : FloatingWindowLimiterNoLua.calcFixedWindowStartTs opts t = c :=
          hts t (by simp)
        have hrest : ∀ t2 ∈ ts2,
            FloatingWindowLimiterNoLua.calcFixedWindowStartTs opts t2 = c :=
          fun t2 ht2 => hts t2 (by simp [ht2])
        simp only [runCalls, floatingNoLua_step_noprev opts clientId hW hc,
          ih (j + 1) hrest, List.length_cons, List.range_succ_eq_map,
          List.map_cons, List.map_map, Prod.mk.injEq, List.cons.injEq]
        refine ⟨⟨by norm_num, ?_⟩, ?_⟩
        · apply List.map_congr_left
          intro i _
          simp only [Function.comp_apply, Nat.succ_eq_add_one]
          push_cast
          ring
        · push_cast
          ring_nf
          simp
  cases times with
  | nil => simp at hne
  | cons t ts =>
      have hc := h t (by simp)
      have hrest : ∀ t2 ∈ ts,
          FloatingWindowLimiterNoLua.calcFixedWindowStartTs opts t2 = c :=
        fun t2 ht2 => h t2 (by simp [ht2])
      simp only [runCalls, floatingNoLua_step_fresh opts clientId hc,
        hlive 1 ts hrest, List.length_cons, List.range_succ_eq_map,
        List.map_cons, List.map_map, List.cons.injEq, Prod.mk.injEq]
      refine ⟨⟨by norm_num, ?_⟩, ?_⟩
      · apply List.map_congr_left
        intro i _
        simp only [Function.comp_apply, Nat.succ_eq_add_one]
        push_cast
        ring
      · push_cast
        ring_nf
        simp

/-- Script-variant floating-window run for a fresh client: identical
results and stores (the approximation is integral, so the Lua truncation
is exact). -/
theorem floatingLua_run_fresh (opts : FloatingWindowLimiterOpts)
    (clientId : String) {c : Int} (hW : 0 < opts.windowSizeMs)
    (times : List Int) (hne : times ≠ [])
    (h : ∀ t ∈ times, FloatingWindowLimiterNoLua.calcFixedWindowStartTs opts t = c) :
    runCalls (fun s t => FloatingWindowLimiter.registerHit opts s clientId t)
      [] times =
    ((List.range times.length).map (fun i : Nat => opts.limit - ((i : Int) + 1)),
      [(FloatingWindowLimiterNoLua.getClientWindowKey opts clientId c,
        ⟨times.length, some (c + opts.windowSizeMs)⟩)]) := by
  have hlive : ∀ (j : Int), 1 ≤ j → ∀ (ts : List Int),
      (∀ t ∈ ts, FloatingWindowLimiterNoLua.calcFixedWindowStartTs opts t = c) →
      runCalls (fun s t => FloatingWindowLimiter.registerHit opts s clientId t)
        [(FloatingWindowLimiterNoLua.getClientWindowKey opts clientId c,
          ⟨j, some (c + opts.windowSizeMs)⟩)] ts =
      ((List.range ts.length).map (fun i : Nat => opts.limit - (j + (i : Int) + 1)),
        [(FloatingWindowLimiterNoLua.getClientWindowKey opts clientId c,
          ⟨j + ts.length, some (c + opts.windowSizeMs)⟩)]) := by
    intro j hj ts hts
    induction ts generalizing j with
    | nil => simp [runCalls]
    | cons t ts2 ih =>
        have hc : FloatingWindowLimiterNoLua.calcFixedWindowStartTs opts t = c :=
          hts t (by simp)
        have hrest : ∀ t2 ∈ ts2,
            FloatingWindowLimiterNoLua.calcFixedWindowStartTs opts t2 = c :=
          fun t2 ht2 => hts t2 (by simp [ht2])
        have hstep := floatingLua_step_noprev (j := j) opts clientId hW
          (by omega) hc
        simp only [runCalls, hstep, ih (j + 1) (by omega) hrest,
          List.length_cons, List.range_succ_eq_map,
          List.map_cons, List.map_map, Prod.mk.injEq, List.cons.injEq]
        refine ⟨⟨by norm_num, ?_⟩, ?_⟩
        · apply List.map_congr_left
          intro i _
          simp only [Function.comp_apply, Nat.succ_eq_add_one]
          push_cast
          ring
        · push_cast
          ring_nf
          simp
  cases times with
  | nil => simp at hne
  | cons t ts =>
      have hc := h t (by simp)
      have hrest : ∀ t2 ∈ ts,
          FloatingWindowLimiterNoLua.calcFixedWindowStartTs opts t2 = c :=
        fun t2 ht2 => h t2 (by simp [ht2])
      simp only [runCalls, floatingLua_step_fresh opts clientId hc,
        hlive 1 (le_refl 1) ts hrest, List.length_cons, List.range_succ_eq_map,
        List.map_cons, List.map_map, List.cons.injEq, Prod.mk.injEq]
      refine ⟨⟨by norm_num, ?_⟩, ?_⟩
      · apply List.map_congr_left
        intro i _
        simp only [Function.comp_apply, Nat.succ_eq_add_one]
        push_cast
        ring
      · push_cast
        ring_nf
        simp

/-! ### Claim C6 -/

/-- C6: for the floating-window limiter (transaction variant and
in-memory variant), with `c` the current fixed-window start,
`t = now - c` (which always satisfies `0 ≤ t < W`), `p` the
previous-window counter read (0 when absent) and `cur` the current
counter including the hit being registered, `registerHit` returns exactly
`⌊limit - (p * (W - t)/W + cur)⌋`. -/
theorem floatingWindow_registerHit_formula (opts : FloatingWindowLimiterOpts)
    (s : WStore) (clientId : String) (nowTs : Int) (hW : 0 < opts.windowSizeMs)
    (st : FloatingWindowInMemoryLimiter) (clientId2 : String) (ts : Int)
    (hWm : 0 < st.opts.windowSizeMs) :
    ((FloatingWindowLimiterNoLua.registerHit opts s clientId nowTs).1 =
      ⌊(opts.limit : Rat) -
        (((vkGet s nowTs (FloatingWindowLimiterNoLua.getClientWindowKey opts clientId
            (FloatingWindowLimiterNoLua.calcFixedWindowStartTs opts nowTs -
              opts.windowSizeMs))).getD 0 : Rat) *
          ((opts.windowSizeMs -
            (nowTs - FloatingWindowLimiterNoLua.calcFixedWindowStartTs opts nowTs) :
              Int) : Rat) / (opts.windowSizeMs : Rat) +
         ((vkIncr s nowTs (FloatingWindowLimiterNoLua.getClientWindowKey opts clientId
            (FloatingWindowLimiterNoLua.calcFixedWindowStartTs opts nowTs))).1 :
            Rat))⌋ ∧
     0 ≤ nowTs - FloatingWindowLimiterNoLua.calcFixedWindowStartTs opts nowTs ∧
     nowTs - FloatingWindowLimiterNoLua.calcFixedWindowStartTs opts nowTs <
       opts.windowSizeMs) ∧
    ((FloatingWindowInMemoryLimiter.registerHit st clientId2 ts).1 =
      ⌊(st.opts.limit : Rat) -
        (((kvGet (FloatingWindowInMemoryLimiter.checkWindowExpiration st ts).previousWindow.clientHitCounter
            clientId2).getD 0 : Rat) *
          ((st.opts.windowSizeMs - (ts - inMemoryCalcWindowStartTs st.opts ts) :
              Int) : Rat) / (st.opts.windowSizeMs : Rat) +
         (((kvGet (FloatingWindowInMemoryLimiter.checkWindowExpiration st ts).currentWindow.clientHitCounter
            clientId2).getD 0 + 1 : Int) : Rat))⌋ ∧
     0 ≤ ts - inMemoryCalcWindowStartTs st.opts ts ∧
     ts - inMemoryCalcWindowStartTs st.opts ts < st.opts.windowSizeMs) := by
  constructor
  · refine ⟨?_, ?_, ?_⟩
    · unfold FloatingWindowLimiterNoLua.registerHit
      have hwt : FloatingWindowLimiterNoLua.calcPrevWindowWeight opts nowTs =
          ((opts.windowSizeMs -
            (nowTs - FloatingWindowLimiterNoLua.calcFixedWindowStartTs opts nowTs) :
              Int) : Rat) / (opts.windowSizeMs : Rat) := by
        unfold FloatingWindowLimiterNoLua.calcPrevWindowWeight
        push_cast
        ring
      rw [hwt]
      simp only [mul_div_assoc]
    · have := @windowStartTs_le (opts.startDate) (opts.windowSizeMs) (nowTs) hW
      unfold FloatingWindowLimiterNoLua.calcFixedWindowStartTs
      omega
    · have := @lt_windowStartTs_add (opts.startDate) (opts.windowSizeMs) (nowTs) hW
      unfold FloatingWindowLimiterNoLua.calcFixedWindowStartTs
      omega
  · refine ⟨?_, ?_, ?_⟩
    · have hopts : (FloatingWindowInMemoryLimiter.checkWindowExpiration st ts).opts
          = st.opts := by
        unfold FloatingWindowInMemoryLimiter.checkWindowExpiration
        by_cases h : st.currentWindow.isExpiredAt ts = true <;> simp [h]
      simp only [FloatingWindowInMemoryLimiter.registerHit]
      rw [hopts]
      have happ : ∀ p cur : Int,
          FloatingWindowInMemoryLimiter.calcApproximation st.opts p cur ts =
          (p : Rat) *
            ((st.opts.windowSizeMs - (ts - inMemoryCalcWindowStartTs st.opts ts) :
              Int) : Rat) / (st.opts.windowSizeMs : Rat) + (cur : Rat) := by
        intro p cur
        simp only [FloatingWindowInMemoryLimiter.calcApproximation]
        push_cast
        ring
      rw [happ]
    · have := @windowStartTs_le (st.opts.startDate) (st.opts.windowSizeMs) (ts) hWm
      unfold inMemoryCalcWindowStartTs
      omega
    · have := @lt_windowStartTs_add (st.opts.startDate) (st.opts.windowSizeMs) (ts) hWm
      unfold inMemoryCalcWindowStartTs
      omega

def cexFloatOpts : FloatingWindowLimiterOpts :=
  { windowSizeMs := 10, startDate := 0, limit := 3, keyPfx := testPfx }

/-- A store holding one hit in the previous window (start `-10`) of the
window containing time 5. -/
def cexFloatStore : WStore :=
  [(FloatingWindowLimiterNoLua.getClientWindowKey cexFloatOpts testClient (-10),
    ⟨1, none⟩)]

def cexMemOpts : InMemoryRateLimiterOpts :=
  { windowSizeMs := 10, startDate := 0, limit := 3 }

/-- C6 witness: window size 10, previous-window count 1, hit at `now = 5`
(so `t = 5`, weight `1/2`). -/
theorem floatingWindow_registerHit_formula_witness :
    ((FloatingWindowLimiterNoLua.registerHit cexFloatOpts cexFloatStore testClient 5).1 =
      ⌊(cexFloatOpts.limit : Rat) -
        (((vkGet cexFloatStore 5 (FloatingWindowLimiterNoLua.getClientWindowKey cexFloatOpts testClient
            (FloatingWindowLimiterNoLua.calcFixedWindowStartTs cexFloatOpts 5 -
              cexFloatOpts.windowSizeMs))).getD 0 : Rat) *
          ((cexFloatOpts.windowSizeMs -
            (5 - FloatingWindowLimiterNoLua.calcFixedWindowStartTs cexFloatOpts 5) :
              Int) : Rat) / (cexFloatOpts.windowSizeMs : Rat) +
         ((vkIncr cexFloatStore 5 (FloatingWindowLimiterNoLua.getClientWindowKey cexFloatOpts testClient
            (FloatingWindowLimiterNoLua.calcFixedWindowStartTs cexFloatOpts 5))).1 :
            Rat))⌋ ∧
     0 ≤ 5 - FloatingWindowLimiterNoLua.calcFixedWindowStartTs cexFloatOpts 5 ∧
     5 - FloatingWindowLimiterNoLua.calcFixedWindowStartTs cexFloatOpts 5 <
       cexFloatOpts.windowSizeMs) ∧
    ((FloatingWindowInMemoryLimiter.registerHit
        (FloatingWindowInMemoryLimiter.create cexMemOpts 0) testClient 5).1 =
      ⌊((FloatingWindowInMemoryLimiter.create cexMemOpts 0).opts.limit : Rat) -
        (((kvGet (FloatingWindowInMemoryLimiter.checkWindowExpiration
              (FloatingWindowInMemoryLimiter.create cexMemOpts 0) 5).previousWindow.clientHitCounter
            testClient).getD 0 : Rat) *
          (((FloatingWindowInMemoryLimiter.create cexMemOpts 0).opts.windowSizeMs -
            (5 - inMemoryCalcWindowStartTs
              (FloatingWindowInMemoryLimiter.create cexMemOpts 0).opts 5) :
              Int) : Rat) /
            ((FloatingWindowInMemoryLimiter.create cexMemOpts 0).opts.windowSizeMs : Rat) +
         (((kvGet (FloatingWindowInMemoryLimiter.checkWindowExpiration
              (FloatingWindowInMemoryLimiter.create cexMemOpts 0) 5).currentWindow.clientHitCounter
            testClient).getD 0 + 1 : Int) : Rat))⌋ ∧
     0 ≤ 5 - inMemoryCalcWindowStartTs
        (FloatingWindowInMemoryLimiter.create cexMemOpts 0).opts 5 ∧
     5 - inMemoryCalcWindowStartTs
        (FloatingWindowInMemoryLimiter.create cexMemOpts 0).opts 5 <
       (FloatingWindowInMemoryLimiter.create cexMemOpts 0).opts.windowSizeMs) :=
  floatingWindow_registerHit_formula cexFloatOpts cexFloatStore testClient 5
    (by decide) (FloatingWindowInMemoryLimiter.create cexMemOpts 0) testClient 5
    (by decide)

/-! ### Sliding-window lemmas -/

theorem runCalls_congr {σ ι ρ : Type} {f g : σ → ι → ρ × σ}
    (h : ∀ s i, f s i = g s i) (s : σ) (l : List ι) :
    runCalls f s l = runCalls g s l := by
  induction l generalizing s with
  | nil => rfl
  | cons i is ih => simp [runCalls, h, ih]

theorem kvSet_mem_keys {κ β : Type} [DecidableEq κ] {s : List (κ × β)} {k k1 : κ}
    {e : β} (hmem : k1 ∈ (kvSet s k e).map Prod.fst) :
    k1 = k ∨ k1 ∈ s.map Prod.fst := by
  induction s with
  | nil => simp [kvSet] at hmem; exact Or.inl hmem
  | cons hd tl ih =>
      obtain ⟨k2, v2⟩ := hd
      by_cases h2 : k2 = k
      · simp only [kvSet, if_pos h2, List.map_cons, List.mem_cons] at hmem
        rcases hmem with h3 | h3
        · exact Or.inr (by simp [h3, h2])
        · exact Or.inr (by simp [h3])
      · simp only [kvSet, if_neg h2, List.map_cons, List.mem_cons] at hmem
        rcases hmem with h3 | h3
        · exact Or.inr (by simp [h3])
        · rcases ih h3 with h4 | h4
          · exact Or.inl h4
          · exact Or.inr (by simp [h4])

theorem kvErase_subset_keys {κ β : Type} [DecidableEq κ] {s : List (κ × β)}
    {k k1 : κ} (hmem : k1 ∈ (kvErase s k).map Prod.fst) :
    k1 ∈ s.map Prod.fst := by
  induction s with
  | nil => simp [kvErase] at hmem
  | cons hd tl ih =>
      obtain ⟨k2, v2⟩ := hd
      by_cases h2 : k2 = k
      · simp only [kvErase, if_pos h2] at hmem
        simp [hmem]
      · simp only [kvErase, if_neg h2, List.map_cons, List.mem_cons] at hmem
        rcases hmem with h3 | h3
        · simp [h3]
        · simp [ih h3]

theorem kvGet_eq_none_of_not_mem {κ β : Type} [DecidableEq κ]
    {s : List (κ × β)} {k : κ} (h : k ∉ s.map Prod.fst) : kvGet s k = none := by
  induction s with
  | nil => simp [kvGet]
  | cons hd tl ih =>
      obtain ⟨k1, v1⟩ := hd
      simp only [List.map_cons, List.mem_cons, not_or] at h
      have h1 : k1 ≠ k := fun h2 => h.1 h2.symm
      simp only [kvGet, if_neg h1]
      exact ih h.2

/-- Erasing a key makes it unreadable, provided the store binds each key
at most once (every store reachable in this development does). -/
theorem kvGet_kvErase {κ β : Type} [DecidableEq κ] (s : List (κ × β)) (k : κ)
    (hnodup : (s.map Prod.fst).Nodup) : kvGet (kvErase s k) k = none := by
  induction s with
  | nil => simp [kvErase, kvGet]
  | cons hd tl ih =>
      obtain ⟨k1, v1⟩ := hd
      simp only [List.map_cons, List.nodup_cons] at hnodup
      by_cases h : k1 = k
      · subst h
        simp only [kvErase, if_pos rfl]
        exact kvGet_eq_none_of_not_mem hnodup.1
      · simp only [kvErase, if_neg h, kvGet, if_neg h]
        exact ih hnodup.2

/-- Key multiplicity invariant: all store operations preserve a
duplicate-free key list. -/
def StoreKeysNodup {κ β : Type} (s : List (κ × β)) : Prop :=
  (s.map Prod.fst).Nodup

theorem storeKeysNodup_nil {κ β : Type} : StoreKeysNodup ([] : List (κ × β)) := by
  simp [StoreKeysNodup]

theorem storeKeysNodup_kvSet {κ β : Type} [DecidableEq κ] {s : List (κ × β)}
    (h : StoreKeysNodup s) (k : κ) (e : β) : StoreKeysNodup (kvSet s k e) := by
  unfold StoreKeysNodup at h ⊢
  induction s with
  | nil => simp [kvSet]
  | cons hd tl ih =>
      obtain ⟨k1, v1⟩ := hd
      simp only [List.map_cons, List.nodup_cons] at h
      by_cases h2 : k1 = k
      · simp only [kvSet, if_pos h2, List.map_cons, List.nodup_cons]
        exact ⟨h.1, h.2⟩
      · simp only [kvSet, if_neg h2, List.map_cons, List.nodup_cons]
        refine ⟨?_, ih h.2⟩
        intro hmem
        rcases kvSet_mem_keys (s := tl) (k := k) (e := e) hmem with h3 | h3
        · exact h2 h3
        · exact h.1 h3

theorem storeKeysNodup_kvErase {κ β : Type} [DecidableEq κ] {s : List (κ × β)}
    (h : StoreKeysNodup s) (k : κ) : StoreKeysNodup (kvErase s k) := by
  unfold StoreKeysNodup at h ⊢
  induction s with
  | nil => simp [kvErase]
  | cons hd tl ih =>
      obtain ⟨k1, v1⟩ := hd
      simp only [List.map_cons, List.nodup_cons] at h
      by_cases h2 : k1 = k
      · simp only [kvErase, if_pos h2]
        exact h.2
      · simp only [kvErase, if_neg h2, List.map_cons, List.nodup_cons]
        refine ⟨?_, ih h.2⟩
        intro hmem
        exact h.1 (kvErase_subset_keys hmem)

theorem storeKeysNodup_vkPexpireAt {κ α : Type} [DecidableEq κ]
    {s : Store κ α} (h : StoreKeysNodup s) (now : Int) (k : κ) (t : Int) :
    StoreKeysNodup (vkPexpireAt s now k t) := by
  unfold vkPexpireAt
  cases liveGet s now k with
  | none => exact h
  | some e => exact storeKeysNodup_kvSet h _ _

theorem storeKeysNodup_vkSetEx {κ α : Type} [DecidableEq κ]
    {s : Store κ α} (h : StoreKeysNodup s) (k : κ) (v : α) (t : Int) :
    StoreKeysNodup (vkSetEx s k v t) :=
  storeKeysNodup_kvSet h _ _

theorem storeKeysNodup_vkIncr {κ : Type} [DecidableEq κ]
    {s : Store κ Int} (h : StoreKeysNodup s) (now : Int) (k : κ) :
    StoreKeysNodup (vkIncr s now k).2 := by
  unfold vkIncr
  cases liveGet s now k with
  | none => exact storeKeysNodup_kvSet h _ _
  | some e => exact storeKeysNodup_kvSet h _ _

theorem storeKeysNodup_zrem {s : ZStore} (h : StoreKeysNodup s) (now : Int)
    (k : SlidingKey) (hi : Int) :
    StoreKeysNodup (zremRangeByScoreToInc s now k hi) := by
  unfold zremRangeByScoreToInc
  cases liveGet s now k with
  | none => exact h
  | some e =>
      by_cases he : (e.val.filter (fun m => decide (hi < m.2))).isEmpty <;>
        simp only [he, if_pos, if_neg, Bool.false_eq_true, if_false, if_true]
      · exact storeKeysNodup_kvErase h k
      · exact storeKeysNodup_kvSet h _ _

theorem storeKeysNodup_zadd {s : ZStore} (h : StoreKeysNodup s) (now : Int)
    (k : SlidingKey) (id : Nat) (score : Int) :
    StoreKeysNodup (zadd s now k id score) := by
  unfold zadd
  cases liveGet s now k with
  | none => exact storeKeysNodup_kvSet h _ _
  | some e =>
      by_cases hm : e.val.any (fun m => m.1 = id) <;>
        simp only [hm, Bool.false_eq_true, if_false, if_true] <;>
        exact storeKeysNodup_kvSet h _ _

theorem liveGet_some_dest {κ α : Type} [DecidableEq κ] {s : Store κ α}
    {now : Int} {k : κ} {e : Entry α} (h : liveGet s now k = some e) :
    kvGet s k = some e ∧ entryLive e now = true := by
  unfold liveGet at h
  cases hg : kvGet s k with
  | none => rw [hg] at h; simp at h
  | some e2 =>
      rw [hg] at h
      have h4 : (if entryLive e2 now = true then some e2 else none) = some e := h
      by_cases h2 : entryLive e2 now = true
      · rw [if_pos h2] at h4
        injection h4 with h3
        refine ⟨?_, ?_⟩
        · rw [h3]
        · rw [← h3]
          exact h2
      · rw [if_neg h2] at h4
        simp at h4

/-- Trimming twice with the same bound equals trimming once. -/
theorem zrem_idem (s : ZStore) (now : Int) (k : SlidingKey) (hi : Int)
    (hnd : StoreKeysNodup s) :
    zremRangeByScoreToInc (zremRangeByScoreToInc s now k hi) now k hi =
      zremRangeByScoreToInc s now k hi := by
  unfold zremRangeByScoreToInc
  cases hl : liveGet s now k with
  | none => simp [hl]
  | some e =>
      by_cases he : (e.val.filter (fun m => decide (hi < m.2))).isEmpty
      · simp only [hl, he, if_true]
        have : liveGet (kvErase s k) now k = none := by
          unfold liveGet
          rw [kvGet_kvErase s k hnd]
        simp [this]
      · simp only [hl, he, Bool.false_eq_true, if_false]
        have hlv : entryLive e now = true := (liveGet_some_dest hl).2
        have hlive2 : liveGet
            (kvSet s k { e with val := e.val.filter (fun m => decide (hi < m.2)) })
            now k =
            some { e with val := e.val.filter (fun m => decide (hi < m.2)) } := by
          unfold liveGet
          rw [kvGet_kvSet_self]
          have h5 : entryLive
              { e with val := e.val.filter (fun m => decide (hi < m.2)) } now
              = true := hlv
          simp [h5]
        rw [hlive2]
        simp only [List.filter_filter]
        have hff : (e.val.filter
            (fun m => decide (hi < m.2) && decide (hi < m.2))) =
            e.val.filter (fun m => decide (hi < m.2)) := by
          apply List.filter_congr
          intro a _
          simp
        rw [hff]
        simp only [he, Bool.false_eq_true, if_false]
        rw [kvSet_kvSet]

/-- The transaction variant's pre-trim is idempotent with the script's
trim, so a single sequential `registerHit` behaves identically in both
sliding-window variants (on stores with duplicate-free keys, which all
reachable stores are). -/
theorem sliding_step_variants_eq (opts : SlidingWindowLimiterOpts) (s : ZStore)
    (clientId : String) (hitId : Nat) (now : Int) (hnd : StoreKeysNodup s) :
    SlidingWindowLimiterNoLua.registerHit opts s clientId hitId now =
    SlidingWindowLimiter.registerHit opts s clientId hitId now := by
  simp only [SlidingWindowLimiterNoLua.registerHit,
    SlidingWindowLimiter.registerHit, SlidingWindowLimiter.luaScript,
    SlidingWindowLimiterNoLua.removeExpiredHits]
  rw [zrem_idem _ _ _ _ hnd]

/-- A sliding-window `registerHit` step preserves duplicate-free keys. -/
theorem storeKeysNodup_slidingStep (opts : SlidingWindowLimiterOpts)
    {s : ZStore} (clientId : String) (hitId : Nat) (now : Int)
    (h : StoreKeysNodup s) :
    StoreKeysNodup (SlidingWindowLimiterNoLua.registerHit opts s clientId hitId now).2 := by
  unfold SlidingWindowLimiterNoLua.registerHit
    SlidingWindowLimiterNoLua.removeExpiredHits
  exact storeKeysNodup_vkPexpireAt
    (storeKeysNodup_zadd (storeKeysNodup_zrem (storeKeysNodup_zrem h _ _ _) _ _ _) _ _ _ _)
    _ _ _

theorem slidingLua_step_empty (opts : SlidingWindowLimiterOpts)
    (clientId : String) (hitId : Nat) (now : Int) (hW : 0 < opts.windowSizeMs) :
    SlidingWindowLimiter.registerHit opts [] clientId hitId now =
    (opts.limit - 1,
      [(SlidingWindowLimiterNoLua.getClientKey opts clientId,
        ⟨[(hitId, now)], some (now + opts.windowSizeMs)⟩)]) := by
  simp [SlidingWindowLimiter.registerHit, SlidingWindowLimiter.luaScript,
    zremRangeByScoreToInc, zadd, vkPexpireAt, zcount, liveGet, kvGet, kvSet,
    entryLive, hW, List.countP_cons]
  omega

theorem slidingLua_step (opts : SlidingWindowLimiterOpts) (clientId : String)
    (hitId : Nat) (now : Int) (M : List (Nat × Int)) (e : Int)
    (hlive : now < e) (hW : 0 < opts.windowSizeMs)
    (hid : ∀ p ∈ M, ¬ p.1 = hitId)
    (hup : ∀ p ∈ M, p.2 ≤ now) :
    SlidingWindowLimiter.registerHit opts
      [(SlidingWindowLimiterNoLua.getClientKey opts clientId, ⟨M, some e⟩)]
      clientId hitId now =
    (opts.limit -
      ((M.filter (fun m => decide (now - opts.windowSizeMs < m.2))).length + 1),
      [(SlidingWindowLimiterNoLua.getClientKey opts clientId,
        ⟨M.filter (fun m => decide (now - opts.windowSizeMs < m.2)) ++ [(hitId, now)],
          some (now + opts.windowSizeMs)⟩)]) := by
  by_cases hme : (M.filter (fun m => decide (now - opts.windowSizeMs < m.2))).isEmpty
  · have hM0 : M.filter (fun m => decide (now - opts.windowSizeMs < m.2)) = [] := by
      simpa [List.isEmpty_iff] using hme
    simp [SlidingWindowLimiter.registerHit, SlidingWindowLimiter.luaScript,
      zremRangeByScoreToInc, zadd, vkPexpireAt, zcount, liveGet, kvGet, kvSet,
      kvErase, entryLive, hlive, hme, hM0, hW, List.countP_cons]
    omega
  · have hsub : ∀ p ∈ M.filter (fun m => decide (now - opts.windowSizeMs < m.2)), p ∈ M :=
      fun p hp => List.mem_of_mem_filter hp
    have hany : (M.filter (fun m => decide (now - opts.windowSizeMs < m.2))).any
        (fun m => m.1 = hitId) = false := by
      rw [List.any_eq_false]
      intro p hp
      simp [hid p (hsub p hp)]
    have hcount : (M.filter (fun m => decide (now - opts.windowSizeMs < m.2))).countP
        (fun m => decide (now ≤ m.2 + opts.windowSizeMs) && decide (m.2 ≤ now)) =
        (M.filter (fun m => decide (now - opts.windowSizeMs < m.2))).length := by
      rw [List.countP_eq_length]
      intro p hp
      have h1 := List.of_mem_filter hp
      have h2 := hup p (hsub p hp)
      simp at h1 ⊢
      omega
    simp [SlidingWindowLimiter.registerHit, SlidingWindowLimiter.luaScript,
      zremRangeByScoreToInc, zadd, vkPexpireAt, zcount, liveGet, kvGet, kvSet,
      entryLive, hlive, hme, hany, hW, List.countP_append, List.countP_cons,
      hcount]
    omega

/-- The hit log after `k` hits with ids `0, …, k-1` at times `τ 0, …`. -/
def msList (τ : Nat → Int) (k : Nat) : List (Nat × Int) :=
  (List.range k).map (fun i => (i, τ i))

theorem msList_succ (τ : Nat → Int) (k : Nat) :
    msList τ (k + 1) = msList τ k ++ [(k, τ k)] := by
  simp [msList, List.range_succ]

theorem slidingLua_run_generic (opts : SlidingWindowLimiterOpts)
    (clientId : String) (τ : Nat → Int) (hW : 0 < opts.windowSizeMs) :
    ∀ (n j : Nat),
    (∀ a b : Nat, a ≤ b → b < j + 1 + n → τ a ≤ τ b) →
    (∀ a b : Nat, a < j + 1 + n → b < j + 1 + n →
      τ b - τ a < opts.windowSizeMs) →
    runCalls (fun s p => SlidingWindowLimiter.registerHit opts s clientId p.1 p.2)
      [(SlidingWindowLimiterNoLua.getClientKey opts clientId,
        ⟨msList τ (j + 1), some (τ j + opts.windowSizeMs)⟩)]
      ((List.range' (j + 1) n).map (fun i => (i, τ i))) =
    ((List.range n).map (fun i : Nat => opts.limit - ((j : Int) + 1 + i + 1)),
      [(SlidingWindowLimiterNoLua.getClientKey opts clientId,
        ⟨msList τ (j + 1 + n), some (τ (j + n) + opts.windowSizeMs)⟩)]) := by
  intro n
  induction n with
  | zero => intro j _ _; simp [runCalls]
  | succ n ih =>
      intro j hmono hspan
      have hlive : τ (j + 1) < τ j + opts.windowSizeMs := by
        have := hspan j (j + 1) (by omega) (by omega)
        omega
      have hid : ∀ p ∈ msList τ (j + 1), ¬ p.1 = j + 1 := by
        intro p hp
        simp [msList, List.mem_map, List.mem_range] at hp
        obtain ⟨i, hi, rfl⟩ := hp
        simp
        omega
      have hup : ∀ p ∈ msList τ (j + 1), p.2 ≤ τ (j + 1) := by
        intro p hp
        simp [msList, List.mem_map, List.mem_range] at hp
        obtain ⟨i, hi, rfl⟩ := hp
        exact hmono i (j + 1) (by omega) (by omega)
      have hfself : (msList τ (j + 1)).filter
          (fun m => decide (τ (j + 1) - opts.windowSizeMs < m.2)) =
          msList τ (j + 1) := by
        rw [List.filter_eq_self]
        intro p hp
        simp [msList, List.mem_map, List.mem_range] at hp
        obtain ⟨i, hi, rfl⟩ := hp
        simp
        have := hspan i (j + 1) (by omega) (by omega)
        omega
      have hstep := slidingLua_step opts clientId (j + 1) (τ (j + 1))
        (msList τ (j + 1)) (τ j + opts.windowSizeMs) hlive hW hid hup
      rw [hfself] at hstep
      have hlen : (msList τ (j + 1)).length = j + 1 := by
        simp [msList]
      rw [hlen] at hstep
      have hms2 : msList τ (j + 1) ++ [(j + 1, τ (j + 1))] = msList τ (j + 2) :=
        (msList_succ τ (j + 1)).symm
      rw [hms2] at hstep
      have hrange : List.range' (j + 1) (n + 1) = (j + 1) :: List.range' (j + 2) n := by
        simp [List.range'_succ]
      rw [hrange]
      simp only [List.map_cons, runCalls, hstep]
      have ihx := ih (j + 1)
        (fun a b hab hb => hmono a b hab (by omega))
        (fun a b ha hb => hspan a b (by omega) (by omega))
      have hj2 : j + 1 + 1 = j + 2 := by omega
      rw [hj2] at ihx
      rw [ihx]
      simp only [Prod.mk.injEq, List.cons.injEq, List.range_succ_eq_map,
        List.map_cons, List.map_map]
      refine ⟨⟨by push_cast; ring, ?_⟩, ⟨trivial, ?_⟩, trivial⟩
      · apply List.map_congr_left
        intro i _
        simp only [Function.comp_apply, Nat.succ_eq_add_one]
        push_cast
        ring
      · rw [show j + 2 + n = j + 1 + (n + 1) by omega,
          show j + 1 + n = j + (n + 1) by omega]


/-- Script-variant sliding run from an empty store over hits with ids
`0, …, n` at times `τ 0 ≤ … ≤ τ n` all within one window span. -/
theorem slidingLua_run_fresh (opts : SlidingWindowLimiterOpts)
    (clientId : String) (τ : Nat → Int) (hW : 0 < opts.windowSizeMs) (n : Nat)
    (hmono : ∀ a b : Nat, a ≤ b → b < n + 1 → τ a ≤ τ b)
    (hspan : ∀ a b : Nat, a < n + 1 → b < n + 1 → τ b - τ a < opts.windowSizeMs) :
    runCalls (fun s p => SlidingWindowLimiter.registerHit opts s clientId p.1 p.2)
      [] ((List.range (n + 1)).map (fun i => (i, τ i))) =
    ((List.range (n + 1)).map (fun i : Nat => opts.limit - ((i : Int) + 1)),
      [(SlidingWindowLimiterNoLua.getClientKey opts clientId,
        ⟨msList τ (n + 1), some (τ n + opts.windowSizeMs)⟩)]) := by
  have hsplit : List.range (n + 1) = 0 :: List.range' 1 n := by
    rw [List.range_eq_range']
    rfl
  rw [hsplit]
  simp only [List.map_cons, runCalls,
    slidingLua_step_empty opts clientId 0 (τ 0) hW]
  have hms1 : [(0, τ 0)] = msList τ 1 := by
    simp [msList, List.range_succ]
  rw [hms1]
  have hgen := slidingLua_run_generic opts clientId τ hW n 0
    (fun a b hab hb => hmono a b hab (by omega))
    (fun a b ha hb => hspan a b (by omega) (by omega))
  simp only [Nat.zero_add] at hgen
  rw [hgen]
  simp only [Prod.mk.injEq, List.cons.injEq, List.range'_eq_map_range,
    List.map_map]
  refine ⟨⟨by norm_num, ?_⟩, ⟨trivial, ?_⟩, trivial⟩
  · apply List.map_congr_left
    intro i _
    simp only [Function.comp_apply]
    push_cast
    ring
  · rw [show 1 + n = n + 1 by omega]

/-- Sequential sliding-window runs are identical in the two variants
(from any store with duplicate-free keys, in particular the empty one). -/
theorem sliding_run_variants_eq (opts : SlidingWindowLimiterOpts)
    (clientId : String) (inputs : List (Nat × Int)) :
    ∀ (s : ZStore), StoreKeysNodup s →
    runCalls (fun s2 p => SlidingWindowLimiterNoLua.registerHit opts s2 clientId p.1 p.2)
      s inputs =
    runCalls (fun s2 p => SlidingWindowLimiter.registerHit opts s2 clientId p.1 p.2)
      s inputs := by
  induction inputs with
  | nil => intro s _; rfl
  | cons p ps ih =>
      intro s hnd
      simp only [runCalls]
      rw [sliding_step_variants_eq opts s clientId p.1 p.2 hnd]
      rw [ih _ ?_]
      rw [← sliding_step_variants_eq opts s clientId p.1 p.2 hnd]
      exact storeKeysNodup_slidingStep opts clientId p.1 p.2 hnd


theorem runCalls_append {σ ι ρ : Type} (f : σ → ι → ρ × σ) (s : σ)
    (l1 l2 : List ι) :
    runCalls f s (l1 ++ l2) =
      ((runCalls f s l1).1 ++ (runCalls f (runCalls f s l1).2 l2).1,
        (runCalls f (runCalls f s l1).2 l2).2) := by
  induction l1 generalizing s with
  | nil => simp [runCalls]
  | cons i is ih => simp [runCalls, ih]

/-- Filtering a window of mapped indices that drops exactly the first
element. -/
theorem filter_map_range_drop_first (k : Nat) (g : Nat → Nat × Int)
    (p : Nat × Int → Bool) (h0 : p (g 0) = false)
    (hrest : ∀ i : Nat, 1 ≤ i → i < k + 1 → p (g i) = true) :
    ((List.range (k + 1)).map g).filter p = (List.range k).map (g ∘ Nat.succ) := by
  rw [List.range_succ_eq_map]
  simp only [List.map_cons, List.map_map, List.filter_cons, h0,
    Bool.false_eq_true, if_false]
  rw [List.filter_eq_self]
  intro a ha
  simp only [List.mem_map, List.mem_range] at ha
  obtain ⟨i, hi, rfl⟩ := ha
  exact hrest (i + 1) (by omega) (by omega)

/-- C7 (amended): sliding-window gradual refill holds provided the extra
limited probe is not issued before advancing the clock (a limited
`registerHit` still appends its hit to the log and consumes future
allowance).  With `limit = n2 + 2 ≥ 2`, hits spaced `S` apart with
`(limit-1)*S < W`: the `limit` spaced hits deplete the allowance
(`limit-1, …, 0`); a hit at time `W` (i.e. `W - (limit-1)*S` after the
last) is admitted with result 0; one further hit `S` later is admitted
with result 0; and a second hit at that same instant is limited (`-1`).
Identical in both store-backed variants. -/
theorem slidingWindow_refill_amended (opts : SlidingWindowLimiterOpts)
    (clientId : String) (S : Int) (n2 : Nat)
    (hW : 0 < opts.windowSizeMs) (hS : 0 < S)
    (hlim : opts.limit = (n2 : Int) + 2)
    (hspan : ((n2 : Int) + 1) * S < opts.windowSizeMs) :
    (runCalls (fun s p => SlidingWindowLimiter.registerHit opts s clientId p.1 p.2)
      [] (((List.range (n2 + 2)).map (fun i : Nat => ((i : Nat), (i : Int) * S))) ++
        [(n2 + 2, opts.windowSizeMs),
         (n2 + 3, opts.windowSizeMs + S),
         (n2 + 4, opts.windowSizeMs + S)])).1 =
      ((List.range (n2 + 2)).map (fun i : Nat => opts.limit - ((i : Int) + 1))) ++
        [0, 0, -1] ∧
    (runCalls (fun s p => SlidingWindowLimiterNoLua.registerHit opts s clientId p.1 p.2)
      [] (((List.range (n2 + 2)).map (fun i : Nat => ((i : Nat), (i : Int) * S))) ++
        [(n2 + 2, opts.windowSizeMs),
         (n2 + 3, opts.windowSizeMs + S),
         (n2 + 4, opts.windowSizeMs + S)])).1 =
      ((List.range (n2 + 2)).map (fun i : Nat => opts.limit - ((i : Int) + 1))) ++
        [0, 0, -1] := by
  have hmain : (runCalls
      (fun s p => SlidingWindowLimiter.registerHit opts s clientId p.1 p.2)
      [] (((List.range (n2 + 2)).map (fun i : Nat => ((i : Nat), (i : Int) * S))) ++
        [(n2 + 2, opts.windowSizeMs),
         (n2 + 3, opts.windowSizeMs + S),
         (n2 + 4, opts.windowSizeMs + S)])).1 =
      ((List.range (n2 + 2)).map (fun i : Nat => opts.limit - ((i : Int) + 1))) ++
        [0, 0, -1] := by
    have hSnn : 0 ≤ S := le_of_lt hS
    set W := opts.windowSizeMs with hWdef
    set τ : Nat → Int := fun i => (i : Int) * S with hτ
    have hτmono : ∀ a b : Nat, a ≤ b → b < (n2 + 1) + 1 → τ a ≤ τ b := by
      intro a b hab _
      simp only [hτ]
      have : (a : Int) ≤ (b : Int) := by exact_mod_cast hab
      nlinarith
    have hτspan : ∀ a b : Nat, a < (n2 + 1) + 1 → b < (n2 + 1) + 1 →
        τ b - τ a < W := by
      intro a b _ hb
      simp only [hτ]
      have hb2 : (b : Int) ≤ (n2 : Int) + 1 := by exact_mod_cast Nat.lt_succ_iff.1 hb
      have ha2 : (0 : Int) ≤ (a : Int) := Int.ofNat_nonneg a
      nlinarith
    have h1 := slidingLua_run_fresh opts clientId τ hW (n2 + 1) hτmono hτspan
    rw [runCalls_append]
    have hin : ((List.range (n2 + 2)).map (fun i : Nat => ((i : Nat), (i : Int) * S))) =
        ((List.range ((n2 + 1) + 1)).map (fun i => (i, τ i))) := rfl
    rw [hin, h1]
    have hτi : ∀ i : Nat, τ i = (i : Int) * S := fun i => rfl
    -- Probe 1: hit id n2+2 at time W
    have hlive1 : W < τ (n2 + 1) + W := by
      rw [hτi]
      push_cast
      nlinarith
    have hid1 : ∀ p ∈ msList τ (n2 + 1 + 1), ¬ p.1 = n2 + 2 := by
      intro p hp
      simp only [msList, List.mem_map, List.mem_range] at hp
      obtain ⟨i, hi, rfl⟩ := hp
      simp
      omega
    have hup1 : ∀ p ∈ msList τ (n2 + 1 + 1), p.2 ≤ W := by
      intro p hp
      simp only [msList, List.mem_map, List.mem_range] at hp
      obtain ⟨i, hi, rfl⟩ := hp
      simp only [hτi]
      have : (i : Int) ≤ (n2 : Int) + 1 := by exact_mod_cast Nat.lt_succ_iff.1 hi
      nlinarith
    have hstep1 := slidingLua_step opts clientId (n2 + 2) W
      (msList τ (n2 + 1 + 1)) (τ (n2 + 1) + W) hlive1 hW hid1 hup1
    have hf1 : (msList τ (n2 + 1 + 1)).filter
        (fun m => decide (W - W < m.2)) =
        (List.range (n2 + 1)).map ((fun i => (i, τ i)) ∘ Nat.succ) := by
      have := filter_map_range_drop_first (n2 + 1) (fun i => (i, τ i))
        (fun m => decide (W - W < m.2)) ?_ ?_
      · exact this
      · simp [hτi]
      · intro i h1i hik
        simp only [hτi, decide_eq_true_eq]
        have : (1 : Int) ≤ (i : Int) := by exact_mod_cast h1i
        nlinarith
    rw [hf1] at hstep1
    have hlen1 : ((List.range (n2 + 1)).map ((fun i => (i, τ i)) ∘ Nat.succ)).length
        = n2 + 1 := by simp
    rw [hlen1] at hstep1
    -- Probe 2: hit id n2+3 at time W + S
    have hSW : S < W := by nlinarith
    have hlive2 : W + S < W + W := by omega
    have hid2 : ∀ p ∈ (List.range (n2 + 1)).map ((fun i => (i, τ i)) ∘ Nat.succ)
        ++ [(n2 + 2, W)], ¬ p.1 = n2 + 3 := by
      intro p hp
      simp only [List.mem_append, List.mem_map, List.mem_range, List.mem_singleton] at hp
      rcases hp with ⟨i, hi, rfl⟩ | rfl
      · simp
        omega
      · simp
    have hup2 : ∀ p ∈ (List.range (n2 + 1)).map ((fun i => (i, τ i)) ∘ Nat.succ)
        ++ [(n2 + 2, W)], p.2 ≤ W + S := by
      intro p hp
      simp only [List.mem_append, List.mem_map, List.mem_range, List.mem_singleton] at hp
      rcases hp with ⟨i, hi, rfl⟩ | rfl
      · simp only [Function.comp_apply, hτi]
        push_cast
        nlinarith
      · simp
        omega
    have hstep2 := slidingLua_step opts clientId (n2 + 3) (W + S)
      ((List.range (n2 + 1)).map ((fun i => (i, τ i)) ∘ Nat.succ) ++ [(n2 + 2, W)])
      (W + W) hlive2 hW hid2 hup2
    have hf2 : (((List.range (n2 + 1)).map ((fun i => (i, τ i)) ∘ Nat.succ))
        ++ [(n2 + 2, W)]).filter (fun m => decide (W + S - W < m.2)) =
        (List.range n2).map ((fun i => (i, τ i)) ∘ Nat.succ ∘ Nat.succ)
          ++ [(n2 + 2, W)] := by
      rw [List.filter_append]
      have hone : ([((n2 + 2 : Nat), W)].filter
          (fun m => decide (W + S - W < m.2))) = [(n2 + 2, W)] := by
        simp only [List.filter_cons, decide_eq_true_eq]
        rw [if_pos (by omega)]
        rfl
      rw [hone]
      have := filter_map_range_drop_first n2 ((fun i => (i, τ i)) ∘ Nat.succ)
        (fun m => decide (W + S - W < m.2)) ?_ ?_
      · rw [this]
        simp [Function.comp]
      · simp only [Function.comp_apply, hτi, decide_eq_false_iff_not]
        push_cast
        omega
      · intro i h1i hik
        simp only [Function.comp_apply, hτi, decide_eq_true_eq]
        have : (1 : Int) ≤ (i : Int) := by exact_mod_cast h1i
        push_cast
        nlinarith
    rw [hf2] at hstep2
    have hlen2 : ((List.range n2).map ((fun i => (i, τ i)) ∘ Nat.succ ∘ Nat.succ)
        ++ [((n2 + 2 : Nat), W)]).length = n2 + 1 := by simp
    rw [hlen2] at hstep2
    -- Probe 3: hit id n2+4 at time W + S (same instant)
    have hlive3 : W + S < W + S + W := by omega
    have hid3 : ∀ p ∈ ((List.range n2).map ((fun i => (i, τ i)) ∘ Nat.succ ∘ Nat.succ)
        ++ [(n2 + 2, W)]) ++ [(n2 + 3, W + S)], ¬ p.1 = n2 + 4 := by
      intro p hp
      simp only [List.mem_append, List.mem_map, List.mem_range, List.mem_singleton] at hp
      rcases hp with (⟨i, hi, rfl⟩ | rfl) | rfl
      · simp
        omega
      · simp
      · simp
    have hup3 : ∀ p ∈ ((List.range n2).map ((fun i => (i, τ i)) ∘ Nat.succ ∘ Nat.succ)
        ++ [(n2 + 2, W)]) ++ [(n2 + 3, W + S)], p.2 ≤ W + S := by
      intro p hp
      simp only [List.mem_append, List.mem_map, List.mem_range, List.mem_singleton] at hp
      rcases hp with (⟨i, hi, rfl⟩ | rfl) | rfl
      · simp only [Function.comp_apply, hτi]
        push_cast
        nlinarith
      · simp
        omega
      · simp
    have hstep3 := slidingLua_step opts clientId (n2 + 4) (W + S)
      (((List.range n2).map ((fun i => (i, τ i)) ∘ Nat.succ ∘ Nat.succ)
        ++ [(n2 + 2, W)]) ++ [(n2 + 3, W + S)])
      (W + S + W) hlive3 hW hid3 hup3
    have hf3 : ((((List.range n2).map ((fun i => (i, τ i)) ∘ Nat.succ ∘ Nat.succ)
        ++ [(n2 + 2, W)]) ++ [(n2 + 3, W + S)]).filter
          (fun m => decide (W + S - W < m.2))) =
        (((List.range n2).map ((fun i => (i, τ i)) ∘ Nat.succ ∘ Nat.succ)
        ++ [(n2 + 2, W)]) ++ [(n2 + 3, W + S)]) := by
      rw [List.filter_eq_self]
      intro p hp
      simp only [List.mem_append, List.mem_map, List.mem_range, List.mem_singleton] at hp
      rcases hp with (⟨i, hi, rfl⟩ | rfl) | rfl
      · simp only [Function.comp_apply, hτi, decide_eq_true_eq]
        push_cast
        nlinarith
      · simp only [decide_eq_true_eq]
        omega
      · simp only [decide_eq_true_eq]
        omega
    rw [hf3] at hstep3
    have hlen3 : ((((List.range n2).map ((fun i => (i, τ i)) ∘ Nat.succ ∘ Nat.succ)
        ++ [((n2 + 2 : Nat), W)]) ++ [((n2 + 3 : Nat), W + S)])).length = n2 + 2 := by
      simp
    rw [hlen3] at hstep3
    -- assemble the probe run
    simp only [runCalls, hstep1, hstep2, hstep3]
    rw [hlim]
    have e1 : (n2 : Int) + 2 - ((((n2 + 1) : Nat) : Int) + 1) = 0 := by
      push_cast
      ring
    have e2 : (n2 : Int) + 2 - ((((n2 + 2) : Nat) : Int) + 1) = -1 := by
      push_cast
      ring
    rw [e1, e2, show n2 + 1 + 1 = n2 + 2 from rfl]
  refine ⟨hmain, ?_⟩
  rw [sliding_run_variants_eq opts clientId _ [] storeKeysNodup_nil]
  exact hmain

def cexSlideOpts : SlidingWindowLimiterOpts :=
  { windowSizeMs := 10000, limit := 3, keyPfx := testPfx }

/-- C7 witness: `limit = 3`, `W = 10000`, `S = 50`, mirroring the
repository's own test values. -/
theorem slidingWindow_refill_amended_witness :
    (runCalls (fun s p => SlidingWindowLimiter.registerHit cexSlideOpts s testClient p.1 p.2)
      [] (((List.range 3).map (fun i : Nat => ((i : Nat), (i : Int) * 50))) ++
        [(3, cexSlideOpts.windowSizeMs),
         (4, cexSlideOpts.windowSizeMs + 50),
         (5, cexSlideOpts.windowSizeMs + 50)])).1 =
      ((List.range 3).map (fun i : Nat => cexSlideOpts.limit - ((i : Int) + 1))) ++
        [0, 0, -1] ∧
    (runCalls (fun s p => SlidingWindowLimiterNoLua.registerHit cexSlideOpts s testClient p.1 p.2)
      [] (((List.range 3).map (fun i : Nat => ((i : Nat), (i : Int) * 50))) ++
        [(3, cexSlideOpts.windowSizeMs),
         (4, cexSlideOpts.windowSizeMs + 50),
         (5, cexSlideOpts.windowSizeMs + 50)])).1 =
      ((List.range 3).map (fun i : Nat => cexSlideOpts.limit - ((i : Int) + 1))) ++
        [0, 0, -1] :=
  slidingWindow_refill_amended cexSlideOpts testClient 50 1 (by decide)
    (by decide) (by decide) (by decide)

/-- C7 counterexample: the claim's literal scenario issues the limited
probe before advancing; that probe still lands in the hit log, so after
advancing by one further `S` the next `registerHit` returns `-1`, not
the claimed "one more available".  (`limit 3`, `W 10000`, `S 50`:
results are `[2, 1, 0, 0, -1, -1]`, the final `-1` where the claim
requires an admitted hit.) -/
theorem slidingWindow_refill_counterexample :
    (runCalls (fun s p => SlidingWindowLimiterNoLua.registerHit cexSlideOpts s testClient p.1 p.2)
      [] [(0, 0), (1, 50), (2, 100), (3, 10000), (4, 10000), (5, 10050)]).1 =
      [2, 1, 0, 0, -1, -1] ∧
    (runCalls (fun s p => SlidingWindowLimiter.registerHit cexSlideOpts s testClient p.1 p.2)
      [] [(0, 0), (1, 50), (2, 100), (3, 10000), (4, 10000), (5, 10050)]).1 =
      [2, 1, 0, 0, -1, -1] ∧
    (-1 : Int) ≠ 0 := by
  refine ⟨by decide, by decide, by decide⟩


/-! ### Claim C4 -/

/-- C4 (amended): the token-bucket `getAvailableHits` caps the REFILL
AMOUNT at `limit`, not the sum: for a stored state with
`0 ≤ tokens ≤ limit` it returns
`tokens + min(refillAmount, limit)`, which is bounded by `2*limit` but
CAN exceed `limit` whenever `tokens > 0` and enough time has elapsed. -/
theorem tokenBucket_getAvailableHits_amended (opts : TokenBucketLimiterOpts)
    (s : TBStore) (clientId : String) (now : Int) {q lastTs : Rat}
    (htok : vkGet s now (TokenBucketLimiterNoLua.getNTokensKey opts clientId) = some q)
    (hts : vkGet s now (TokenBucketLimiterNoLua.getTsKey opts clientId) = some lastTs)
    (_hq0 : 0 ≤ q) (hql : q ≤ (opts.limit : Rat)) :
    TokenBucketLimiterNoLua.getAvailableHits opts s clientId now =
      q + min (TokenBucketLimiterNoLua.getRefillAmountInMs opts ((now : Rat) - lastTs))
        (opts.limit : Rat) ∧
    TokenBucketLimiterNoLua.getAvailableHits opts s clientId now ≤
      2 * (opts.limit : Rat) := by
  have hmain : TokenBucketLimiterNoLua.getAvailableHits opts s clientId now =
      q + min (TokenBucketLimiterNoLua.getRefillAmountInMs opts ((now : Rat) - lastTs))
        (opts.limit : Rat) := by
    unfold TokenBucketLimiterNoLua.getAvailableHits
      TokenBucketLimiterNoLua.calculateRefilledTokenAmountAtTime
    rw [htok, hts]
    simp
  refine ⟨hmain, ?_⟩
  rw [hmain]
  have h1 : min (TokenBucketLimiterNoLua.getRefillAmountInMs opts ((now : Rat) - lastTs))
      (opts.limit : Rat) ≤ (opts.limit : Rat) := min_le_right _ _
  linarith

def cexTokenOpts : TokenBucketLimiterOpts :=
  { limit := 3, refillIntervalMs := 1000, refillRate := 1, keyPfx := testPfx }

/-- C4 counterexample: `limit 3`, stored `tokens = 1` at `lastTs = 0`
(reachable by two hits at time 0), read at `now = 2500`:
`getAvailableHits` returns `1 + min(2.5, 3) = 3.5 > limit`, violating
"`available = min(limit, tokens + refillAmount)` never exceeds
`limit`". -/
theorem tokenBucket_getAvailableHits_counterexample :
    TokenBucketLimiterNoLua.getAvailableHits cexTokenOpts
      [(TokenBucketLimiterNoLua.getNTokensKey cexTokenOpts testClient, ⟨1, some 3000⟩),
       (TokenBucketLimiterNoLua.getTsKey cexTokenOpts testClient, ⟨0, some 3000⟩)]
      testClient 2500 = 7/2 ∧
    ¬((7 : Rat)/2 ≤ (cexTokenOpts.limit : Rat)) := by
  constructor
  · unfold TokenBucketLimiterNoLua.getAvailableHits
      TokenBucketLimiterNoLua.calculateRefilledTokenAmountAtTime
      TokenBucketLimiterNoLua.getRefillAmountInMs
    have hne : (TokenBucketKeyTag.nTokens = TokenBucketKeyTag.updatedAt) = False := by
      simp
    norm_num [vkGet, liveGet, kvGet, entryLive, TokenBucketLimiterNoLua.getNTokensKey,
      TokenBucketLimiterNoLua.getTsKey, cexTokenOpts, min_def, hne]
  · norm_num [cexTokenOpts]


/-- C4 witness: the formula instantiated on the same concrete store. -/
theorem tokenBucket_getAvailableHits_amended_witness :
    TokenBucketLimiterNoLua.getAvailableHits cexTokenOpts
      [(TokenBucketLimiterNoLua.getNTokensKey cexTokenOpts testClient, ⟨1, some 3000⟩),
       (TokenBucketLimiterNoLua.getTsKey cexTokenOpts testClient, ⟨0, some 3000⟩)]
      testClient 2500 =
      1 + min (TokenBucketLimiterNoLua.getRefillAmountInMs cexTokenOpts
        (((2500 : Int) : Rat) - 0)) ((cexTokenOpts.limit : Rat)) ∧
    TokenBucketLimiterNoLua.getAvailableHits cexTokenOpts
      [(TokenBucketLimiterNoLua.getNTokensKey cexTokenOpts testClient, ⟨1, some 3000⟩),
       (TokenBucketLimiterNoLua.getTsKey cexTokenOpts testClient, ⟨0, some 3000⟩)]
      testClient 2500 ≤ 2 * (cexTokenOpts.limit : Rat) :=
  tokenBucket_getAvailableHits_amended cexTokenOpts
    [(TokenBucketLimiterNoLua.getNTokensKey cexTokenOpts testClient, ⟨1, some 3000⟩),
     (TokenBucketLimiterNoLua.getTsKey cexTokenOpts testClient, ⟨0, some 3000⟩)]
    testClient 2500 rfl rfl (by norm_num) (by norm_num [cexTokenOpts])


/-! ### Token-bucket step and run lemmas (constant clock, fresh client) -/

def tbStore (opts : TokenBucketLimiterOpts) (clientId : String) (m : Int)
    (t0 e : Int) : TBStore :=
  [(TokenBucketLimiterNoLua.getNTokensKey opts clientId, ⟨(m : Rat), some e⟩),
   (TokenBucketLimiterNoLua.getTsKey opts clientId, ⟨(t0 : Rat), some e⟩)]

theorem tbKeys_ne (opts : TokenBucketLimiterOpts) (clientId : String) :
    TokenBucketLimiterNoLua.getNTokensKey opts clientId ≠
      TokenBucketLimiterNoLua.getTsKey opts clientId := by
  simp [TokenBucketLimiterNoLua.getNTokensKey, TokenBucketLimiterNoLua.getTsKey]

theorem tokenNoLua_step_fresh (opts : TokenBucketLimiterOpts) (clientId : String)
    (t0 : Int) (hN : 1 ≤ opts.limit) :
    TokenBucketLimiterNoLua.registerHit opts [] clientId t0 =
      (opts.limit - 1, tbStore opts clientId (opts.limit - 1) t0
        (t0 + ⌈TokenBucketLimiterNoLua.timeForCompleteRefillMs opts⌉)) := by
  have h1 : (1 : Rat) ≤ ((opts.limit : Int) : Rat) := by exact_mod_cast hN
  simp only [TokenBucketLimiterNoLua.registerHit,
    TokenBucketLimiterNoLua.calculateRefilledTokenAmountAtTime,
    TokenBucketLimiterNoLua.updateBucket, vkGet, liveGet, kvGet, vkSetEx, kvSet,
    tbStore]
  norm_num [h1, Prod.ext_iff]
  exact tbKeys_ne opts clientId

theorem tokenNoLua_step_live (opts : TokenBucketLimiterOpts) (clientId : String)
    (t0 e : Int) (m : Int) (hm0 : 0 ≤ m) (hmN : m ≤ opts.limit)
    (hlive : t0 < e) :
    TokenBucketLimiterNoLua.registerHit opts
        (tbStore opts clientId m t0 e) clientId t0 =
      (m - 1, tbStore opts clientId (max (m - 1) 0) t0
        (t0 + ⌈TokenBucketLimiterNoLua.timeForCompleteRefillMs opts⌉)) := by
  have hne := tbKeys_ne opts clientId
  have hne2 : (TokenBucketLimiterNoLua.getNTokensKey opts clientId =
      TokenBucketLimiterNoLua.getTsKey opts clientId) = False := by
    simp [hne]
  have hne3 : (TokenBucketLimiterNoLua.getTsKey opts clientId =
      TokenBucketLimiterNoLua.getNTokensKey opts clientId) = False := by
    simp [Ne.symm hne]
  have hml : ((m : Rat)) ≤ ((opts.limit : Int) : Rat) := by exact_mod_cast hmN
  have hm0r : (0 : Rat) ≤ (m : Rat) := by exact_mod_cast hm0
  have hl0 : (0 : Rat) ≤ ((opts.limit : Int) : Rat) := by
    exact_mod_cast (by omega : (0:Int) ≤ opts.limit)
  simp only [TokenBucketLimiterNoLua.registerHit,
    TokenBucketLimiterNoLua.calculateRefilledTokenAmountAtTime,
    TokenBucketLimiterNoLua.getRefillAmountInMs,
    TokenBucketLimiterNoLua.updateBucket, vkGet, liveGet, kvGet, vkSetEx, kvSet,
    tbStore, entryLive, hne2, hne3, if_true, if_false, eq_self_iff_true,
    hlive, decide_eq_true_eq]
  norm_num [hlive, Prod.ext_iff, min_eq_left hl0]
  rcases le_or_lt 1 m with h1 | h1
  · have h1r : (1 : Rat) ≤ (m : Rat) := by exact_mod_cast h1
    rw [if_pos h1r, min_eq_left (by linarith)]
  · have hm0' : m = 0 := by omega
    subst hm0'
    norm_num

theorem tokenLua_step_fresh (opts : TokenBucketLimiterOpts) (clientId : String)
    (t0 : Int) (hN : 1 ≤ opts.limit) :
    TokenBucketLimiter.registerHit opts [] clientId t0 =
      (opts.limit - 1, tbStore opts clientId (opts.limit - 1) t0
        (t0 + ⌈TokenBucketLimiterNoLua.timeForCompleteRefillMs opts⌉)) := by
  have h1 : (1 : Rat) ≤ ((opts.limit : Int) : Rat) := by exact_mod_cast hN
  simp only [TokenBucketLimiter.registerHit, TokenBucketLimiter.luaScript,
    vkGet, liveGet, kvGet, vkSetEx, kvSet, tbStore]
  norm_num [h1, Prod.ext_iff]
  exact tbKeys_ne opts clientId

theorem tokenLua_step_live (opts : TokenBucketLimiterOpts) (clientId : String)
    (t0 e : Int) (m : Int) (hm0 : 0 ≤ m) (hlive : t0 < e) :
    TokenBucketLimiter.registerHit opts
        (tbStore opts clientId m t0 e) clientId t0 =
      (m - 1, tbStore opts clientId (max (m - 1) 0) t0
        (t0 + ⌈TokenBucketLimiterNoLua.timeForCompleteRefillMs opts⌉)) := by
  have hne := tbKeys_ne opts clientId
  have hne2 : (TokenBucketLimiterNoLua.getNTokensKey opts clientId =
      TokenBucketLimiterNoLua.getTsKey opts clientId) = False := by
    simp [hne]
  have hne3 : (TokenBucketLimiterNoLua.getTsKey opts clientId =
      TokenBucketLimiterNoLua.getNTokensKey opts clientId) = False := by
    simp [Ne.symm hne]
  have hm0r : (0 : Rat) ≤ (m : Rat) := by exact_mod_cast hm0
  simp only [TokenBucketLimiter.registerHit, TokenBucketLimiter.luaScript,
    vkGet, liveGet, kvGet, vkSetEx, kvSet, tbStore, entryLive, hne2, hne3,
    if_true, if_false, eq_self_iff_true, hlive, decide_eq_true_eq]
  norm_num [hlive, Prod.ext_iff]
  rcases le_or_lt 1 m with h1 | h1
  · have h1r : (1 : Rat) ≤ (m : Rat) := by exact_mod_cast h1
    rw [if_pos h1r, max_eq_left (by linarith)]
  · have hm0' : m = 0 := by omega
    subst hm0'
    norm_num

theorem tokenNoLua_run_live (opts : TokenBucketLimiterOpts) (clientId : String)
    (t0 : Int) (hE : 0 < ⌈TokenBucketLimiterNoLua.timeForCompleteRefillMs opts⌉) :
    ∀ (n : Nat) (m : Int), 0 ≤ m → m ≤ opts.limit →
    runCalls (fun s t => TokenBucketLimiterNoLua.registerHit opts s clientId t)
      (tbStore opts clientId m t0
        (t0 + ⌈TokenBucketLimiterNoLua.timeForCompleteRefillMs opts⌉))
      (List.replicate n t0) =
    ((List.range n).map (fun i : Nat => max (m - (i : Int)) 0 - 1),
      tbStore opts clientId (max (m - (n : Int)) 0) t0
        (t0 + ⌈TokenBucketLimiterNoLua.timeForCompleteRefillMs opts⌉)) := by
  intro n
  induction n with
  | zero =>
      intro m hm0 hmN
      simp only [List.replicate, runCalls, List.range_zero, List.map_nil,
        Nat.cast_zero]
      rw [show max (m - 0) 0 = m by omega]
  | succ n ih =>
      intro m hm0 hmN
      simp only [List.replicate, runCalls]
      rw [tokenNoLua_step_live opts clientId t0 _ m hm0 hmN (by omega)]
      rw [ih (max (m - 1) 0) (by omega) (by omega)]
      simp only [Prod.mk.injEq, List.range_succ_eq_map, List.map_cons,
        List.map_map, List.cons.injEq]
      refine ⟨⟨by omega, ?_⟩, ?_⟩
      · apply List.map_congr_left
        intro i _
        simp only [Function.comp_apply, Nat.succ_eq_add_one]
        push_cast
        omega
      · have hcnt : max (max (m - 1) 0 - (n : Int)) 0 =
            max (m - (((n : Nat) + 1 : Nat) : Int)) 0 := by
          push_cast
          omega
        rw [hcnt]

theorem tokenLua_run_live (opts : TokenBucketLimiterOpts) (clientId : String)
    (t0 : Int) (hE : 0 < ⌈TokenBucketLimiterNoLua.timeForCompleteRefillMs opts⌉) :
    ∀ (n : Nat) (m : Int), 0 ≤ m →
    runCalls (fun s t => TokenBucketLimiter.registerHit opts s clientId t)
      (tbStore opts clientId m t0
        (t0 + ⌈TokenBucketLimiterNoLua.timeForCompleteRefillMs opts⌉))
      (List.replicate n t0) =
    ((List.range n).map (fun i : Nat => max (m - (i : Int)) 0 - 1),
      tbStore opts clientId (max (m - (n : Int)) 0) t0
        (t0 + ⌈TokenBucketLimiterNoLua.timeForCompleteRefillMs opts⌉)) := by
  intro n
  induction n with
  | zero =>
      intro m hm0
      simp only [List.replicate, runCalls, List.range_zero, List.map_nil,
        Nat.cast_zero]
      rw [show max (m - 0) 0 = m by omega]
  | succ n ih =>
      intro m hm0
      simp only [List.replicate, runCalls]
      rw [tokenLua_step_live opts clientId t0 _ m hm0 (by omega)]
      rw [ih (max (m - 1) 0) (by omega)]
      simp only [Prod.mk.injEq, List.range_succ_eq_map, List.map_cons,
        List.map_map, List.cons.injEq]
      refine ⟨⟨by omega, ?_⟩, ?_⟩
      · apply List.map_congr_left
        intro i _
        simp only [Function.comp_apply, Nat.succ_eq_add_one]
        push_cast
        omega
      · have hcnt : max (max (m - 1) 0 - (n : Int)) 0 =
            max (m - (((n : Nat) + 1 : Nat) : Int)) 0 := by
          push_cast
          omega
        rw [hcnt]

theorem tokenNoLua_run_fresh (opts : TokenBucketLimiterOpts) (clientId : String)
    (t0 : Int) (hN : 1 ≤ opts.limit)
    (hE : 0 < ⌈TokenBucketLimiterNoLua.timeForCompleteRefillMs opts⌉) (n : Nat) :
    (runCalls (fun s t => TokenBucketLimiterNoLua.registerHit opts s clientId t)
      [] (List.replicate (n + 1) t0)).1 =
    (List.range (n + 1)).map (fun i : Nat => max (opts.limit - (i : Int)) 0 - 1) := by
  simp only [List.replicate, runCalls]
  rw [tokenNoLua_step_fresh opts clientId t0 hN]
  rw [tokenNoLua_run_live opts clientId t0 hE n (opts.limit - 1) (by omega) (by omega)]
  simp only [List.range_succ_eq_map, List.map_cons, List.map_map,
    List.cons.injEq]
  refine ⟨by omega, ?_⟩
  apply List.map_congr_left
  intro i _
  simp only [Function.comp_apply, Nat.succ_eq_add_one]
  push_cast
  omega

theorem tokenLua_run_fresh (opts : TokenBucketLimiterOpts) (clientId : String)
    (t0 : Int) (hN : 1 ≤ opts.limit)
    (hE : 0 < ⌈TokenBucketLimiterNoLua.timeForCompleteRefillMs opts⌉) (n : Nat) :
    (runCalls (fun s t => TokenBucketLimiter.registerHit opts s clientId t)
      [] (List.replicate (n + 1) t0)).1 =
    (List.range (n + 1)).map (fun i : Nat => max (opts.limit - (i : Int)) 0 - 1) := by
  simp only [List.replicate, runCalls]
  rw [tokenLua_step_fresh opts clientId t0 hN]
  rw [tokenLua_run_live opts clientId t0 hE n (opts.limit - 1) (by omega)]
  simp only [List.range_succ_eq_map, List.map_cons, List.map_map,
    List.cons.injEq]
  refine ⟨by omega, ?_⟩
  apply List.map_congr_left
  intro i _
  simp only [Function.comp_apply, Nat.succ_eq_add_one]
  push_cast
  omega

def fwMemState (opts : InMemoryRateLimiterOpts) (c : Int)
    (hc : List (String × Int)) : FixedWindowInMemoryLimiter :=
  { opts := opts,
    window := { startTs := c, duration := opts.windowSizeMs,
                endTs := c + opts.windowSizeMs, clientHitCounter := hc } }

theorem fwMem_create_eq (opts : InMemoryRateLimiterOpts) (t0 : Int) :
    FixedWindowInMemoryLimiter.create opts t0 =
      fwMemState opts (inMemoryCalcWindowStartTs opts t0) [] := rfl

theorem fwMem_step (opts : InMemoryRateLimiterOpts) (clientId : String)
    (t0 : Int) (hc : List (String × Int)) (hW : 0 < opts.windowSizeMs) :
    FixedWindowInMemoryLimiter.registerHit
      (fwMemState opts (inMemoryCalcWindowStartTs opts t0) hc) clientId t0 =
      (opts.limit - ((kvGet hc clientId).getD 0 + 1),
       fwMemState opts (inMemoryCalcWindowStartTs opts t0)
         (kvSet hc clientId ((kvGet hc clientId).getD 0 + 1))) := by
  have h1 := @windowStartTs_le (opts.startDate) _ (t0) hW
  have h2 := @lt_windowStartTs_add (opts.startDate) _ (t0) hW
  simp [FixedWindowInMemoryLimiter.registerHit, fwMemState,
    FixedWindowInMemoryLimiter.checkWindowExpiration,
    RateLimiterWindow.isExpiredAt, inMemoryCalcWindowStartTs, h1, h2]

theorem fwMem_run_live (opts : InMemoryRateLimiterOpts) (clientId : String)
    (t0 : Int) (hW : 0 < opts.windowSizeMs) :
    ∀ (n : Nat) (j : Int),
    runCalls (fun st t => FixedWindowInMemoryLimiter.registerHit st clientId t)
      (fwMemState opts (inMemoryCalcWindowStartTs opts t0) [(clientId, j)])
      (List.replicate n t0) =
    ((List.range n).map (fun i : Nat => opts.limit - (j + (i : Int) + 1)),
      fwMemState opts (inMemoryCalcWindowStartTs opts t0)
        [(clientId, j + (n : Int))]) := by
  intro n
  induction n with
  | zero =>
      intro j
      simp [runCalls]
  | succ n ih =>
      intro j
      simp only [List.replicate, runCalls]
      rw [fwMem_step opts clientId t0 [(clientId, j)] hW]
      simp only [kvGet, if_pos rfl, kvSet, Option.getD_some, if_true,
        eq_self_iff_true]
      rw [ih (j + 1)]
      simp only [Prod.mk.injEq, List.range_succ_eq_map, List.map_cons,
        List.map_map, List.cons.injEq]
      refine ⟨⟨by push_cast; ring, ?_⟩, ?_⟩
      · apply List.map_congr_left
        intro i _
        simp only [Function.comp_apply, Nat.succ_eq_add_one]
        push_cast
        ring
      · have : j + 1 + (n : Int) = j + (((n : Nat) + 1 : Nat) : Int) := by
          push_cast
          ring
        rw [this]

theorem fwMem_run_fresh (opts : InMemoryRateLimiterOpts) (clientId : String)
    (t0 : Int) (hW : 0 < opts.windowSizeMs) (n : Nat) :
    (runCalls (fun st t => FixedWindowInMemoryLimiter.registerHit st clientId t)
      (FixedWindowInMemoryLimiter.create opts t0) (List.replicate (n + 1) t0)).1 =
    (List.range (n + 1)).map (fun i : Nat => opts.limit - ((i : Int) + 1)) := by
  rw [fwMem_create_eq opts t0]
  simp only [List.replicate, runCalls]
  rw [fwMem_step opts clientId t0 [] hW]
  simp only [kvGet, kvSet, Option.getD_none]
  rw [show (0 : Int) + 1 = 1 by ring]
  rw [fwMem_run_live opts clientId t0 hW n 1]
  simp only [List.range_succ_eq_map, List.map_cons, List.map_map,
    List.cons.injEq]
  refine ⟨by push_cast; ring, ?_⟩
  apply List.map_congr_left
  intro i _
  simp only [Function.comp_apply, Nat.succ_eq_add_one]
  push_cast
  ring

def flMemState (opts : InMemoryRateLimiterOpts) (c : Int)
    (hc : List (String × Int)) : FloatingWindowInMemoryLimiter :=
  { opts := opts,
    currentWindow := { startTs := c, duration := opts.windowSizeMs,
                       endTs := c + opts.windowSizeMs, clientHitCounter := hc },
    previousWindow := RateLimiterWindow.create (c - opts.windowSizeMs)
      opts.windowSizeMs }

theorem flMem_create_eq (opts : InMemoryRateLimiterOpts) (t0 : Int) :
    FloatingWindowInMemoryLimiter.create opts t0 =
      flMemState opts (inMemoryCalcWindowStartTs opts t0) [] := rfl

theorem flMem_step (opts : InMemoryRateLimiterOpts) (clientId : String)
    (t0 : Int) (hc : List (String × Int)) (hW : 0 < opts.windowSizeMs) :
    FloatingWindowInMemoryLimiter.registerHit
      (flMemState opts (inMemoryCalcWindowStartTs opts t0) hc) clientId t0 =
      (opts.limit - ((kvGet hc clientId).getD 0 + 1),
       flMemState opts (inMemoryCalcWindowStartTs opts t0)
         (kvSet hc clientId ((kvGet hc clientId).getD 0 + 1))) := by
  have h1 := @windowStartTs_le (opts.startDate) _ (t0) hW
  have h2 := @lt_windowStartTs_add (opts.startDate) _ (t0) hW
  simp only [FloatingWindowInMemoryLimiter.registerHit, flMemState,
    FloatingWindowInMemoryLimiter.checkWindowExpiration,
    FloatingWindowInMemoryLimiter.calcApproximation,
    RateLimiterWindow.isExpiredAt, RateLimiterWindow.create,
    inMemoryCalcWindowStartTs, h1, h2, kvGet, Option.getD_none,
    decide_eq_true_eq, Bool.and_eq_true, Bool.not_eq_true',
    Prod.mk.injEq]
  norm_num [h1, h2]
  norm_cast

theorem flMem_run_live (opts : InMemoryRateLimiterOpts) (clientId : String)
    (t0 : Int) (hW : 0 < opts.windowSizeMs) :
    ∀ (n : Nat) (j : Int),
    runCalls (fun st t => FloatingWindowInMemoryLimiter.registerHit st clientId t)
      (flMemState opts (inMemoryCalcWindowStartTs opts t0) [(clientId, j)])
      (List.replicate n t0) =
    ((List.range n).map (fun i : Nat => opts.limit - (j + (i : Int) + 1)),
      flMemState opts (inMemoryCalcWindowStartTs opts t0)
        [(clientId, j + (n : Int))]) := by
  intro n
  induction n with
  | zero =>
      intro j
      simp [runCalls]
  | succ n ih =>
      intro j
      simp only [List.replicate, runCalls]
      rw [flMem_step opts clientId t0 [(clientId, j)] hW]
      simp only [kvGet, if_pos rfl, kvSet, Option.getD_some, if_true,
        eq_self_iff_true]
      rw [ih (j + 1)]
      simp only [Prod.mk.injEq, List.range_succ_eq_map, List.map_cons,
        List.map_map, List.cons.injEq]
      refine ⟨⟨by push_cast; ring, ?_⟩, ?_⟩
      · apply List.map_congr_left
        intro i _
        simp only [Function.comp_apply, Nat.succ_eq_add_one]
        push_cast
        ring
      · have : j + 1 + (n : Int) = j + (((n : Nat) + 1 : Nat) : Int) := by
          push_cast
          ring
        rw [this]

theorem flMem_run_fresh (opts : InMemoryRateLimiterOpts) (clientId : String)
    (t0 : Int) (hW : 0 < opts.windowSizeMs) (n : Nat) :
    (runCalls (fun st t => FloatingWindowInMemoryLimiter.registerHit st clientId t)
      (FloatingWindowInMemoryLimiter.create opts t0) (List.replicate (n + 1) t0)).1 =
    (List.range (n + 1)).map (fun i : Nat => opts.limit - ((i : Int) + 1)) := by
  rw [flMem_create_eq opts t0]
  simp only [List.replicate, runCalls]
  rw [flMem_step opts clientId t0 [] hW]
  simp only [kvGet, kvSet, Option.getD_none]
  rw [show (0 : Int) + 1 = 1 by ring]
  rw [flMem_run_live opts clientId t0 hW n 1]
  simp only [List.range_succ_eq_map, List.map_cons, List.map_map,
    List.cons.injEq]
  refine ⟨by push_cast; ring, ?_⟩
  apply List.map_congr_left
  intro i _
  simp only [Function.comp_apply, Nat.succ_eq_add_one]
  push_cast
  ring

/-- `[N-1, N-2, ..., N-n]`: the expected `registerHit` results for `n`
consecutive hits against a fresh client with `limit = N`. -/
def depletionSeq (N : Int) (n : Nat) : List Int :=
  (List.range n).map (fun i : Nat => N - 1 - (i : Int))

/-! ### Claim C2 -/

/-- C2: monotonic depletion.  For every one of the ten `registerHit`
implementations (fixed/floating/sliding/token bucket, script and
transaction variants, plus the two in-memory limiters), a fresh client
with `limit = N ≥ 1` and a constant clock gets the result sequence
`N-1, N-2, ..., 0, -1` over `N+1` consecutive calls (positivity of the
window size / refill options as validated at construction). -/
theorem monotonic_depletion (N t0 : Int) (clientId : String) (hN : 1 ≤ N)
    (oFix : FixedWindowLimiterOpts) (hFixL : oFix.limit = N)
    (hFixW : 0 < oFix.windowSizeMs)
    (oFlo : FloatingWindowLimiterOpts) (hFloL : oFlo.limit = N)
    (hFloW : 0 < oFlo.windowSizeMs)
    (oSli : SlidingWindowLimiterOpts) (hSliL : oSli.limit = N)
    (hSliW : 0 < oSli.windowSizeMs)
    (oTok : TokenBucketLimiterOpts) (hTokL : oTok.limit = N)
    (hTokI : 0 < oTok.refillIntervalMs) (hTokR : 0 < oTok.refillRate)
    (oMem : InMemoryRateLimiterOpts) (hMemL : oMem.limit = N)
    (hMemW : 0 < oMem.windowSizeMs) :
    depletionSeq N (N.toNat + 1) =
      (List.range N.toNat).map (fun i : Nat => N - 1 - (i : Int)) ++ [-1] ∧
    (runCalls (fun s t => FixedWindowLimiterNoLua.registerHit oFix s clientId t)
      [] (List.replicate (N.toNat + 1) t0)).1 = depletionSeq N (N.toNat + 1) ∧
    (runCalls (fun s t => FixedWindowLimiter.registerHit oFix s clientId t)
      [] (List.replicate (N.toNat + 1) t0)).1 = depletionSeq N (N.toNat + 1) ∧
    (runCalls (fun s t => FloatingWindowLimiterNoLua.registerHit oFlo s clientId t)
      [] (List.replicate (N.toNat + 1) t0)).1 = depletionSeq N (N.toNat + 1) ∧
    (runCalls (fun s t => FloatingWindowLimiter.registerHit oFlo s clientId t)
      [] (List.replicate (N.toNat + 1) t0)).1 = depletionSeq N (N.toNat + 1) ∧
    (runCalls (fun s p => SlidingWindowLimiterNoLua.registerHit oSli s clientId p.1 p.2)
      [] ((List.range (N.toNat + 1)).map (fun i : Nat => (i, t0)))).1 =
        depletionSeq N (N.toNat + 1) ∧
    (runCalls (fun s p => SlidingWindowLimiter.registerHit oSli s clientId p.1 p.2)
      [] ((List.range (N.toNat + 1)).map (fun i : Nat => (i, t0)))).1 =
        depletionSeq N (N.toNat + 1) ∧
    (runCalls (fun s t => TokenBucketLimiterNoLua.registerHit oTok s clientId t)
      [] (List.replicate (N.toNat + 1) t0)).1 = depletionSeq N (N.toNat + 1) ∧
    (runCalls (fun s t => TokenBucketLimiter.registerHit oTok s clientId t)
      [] (List.replicate (N.toNat + 1) t0)).1 = depletionSeq N (N.toNat + 1) ∧
    (runCalls (fun st t => FixedWindowInMemoryLimiter.registerHit st clientId t)
      (FixedWindowInMemoryLimiter.create oMem t0)
      (List.replicate (N.toNat + 1) t0)).1 = depletionSeq N (N.toNat + 1) ∧
    (runCalls (fun st t => FloatingWindowInMemoryLimiter.registerHit st clientId t)
      (FloatingWindowInMemoryLimiter.create oMem t0)
      (List.replicate (N.toNat + 1) t0)).1 = depletionSeq N (N.toNat + 1) := by
  have hNN : ((N.toNat : Int)) = N := Int.toNat_of_nonneg (by omega)
  have hlen : (List.replicate (N.toNat + 1) t0).length = N.toNat + 1 :=
    List.length_replicate _ _
  have hrepne : List.replicate (N.toNat + 1) t0 ≠ [] := by
    simp
  have hmem : ∀ t ∈ List.replicate (N.toNat + 1) t0,
      FixedWindowLimiterNoLua.calcCurrentWindowStartTs oFix t =
        FixedWindowLimiterNoLua.calcCurrentWindowStartTs oFix t0 := by
    intro t ht
    rw [List.eq_of_mem_replicate ht]
  have hmemF : ∀ t ∈ List.replicate (N.toNat + 1) t0,
      FloatingWindowLimiterNoLua.calcFixedWindowStartTs oFlo t =
        FloatingWindowLimiterNoLua.calcFixedWindowStartTs oFlo t0 := by
    intro t ht
    rw [List.eq_of_mem_replicate ht]
  have hE : 0 < ⌈TokenBucketLimiterNoLua.timeForCompleteRefillMs oTok⌉ := by
    rw [Int.lt_ceil]
    push_cast
    unfold TokenBucketLimiterNoLua.timeForCompleteRefillMs
    have h1 : (0 : Rat) < (oTok.limit : Rat) := by
      rw [hTokL]
      exact_mod_cast (by omega : (0:Int) < N)
    have h2 : (0 : Rat) < (oTok.refillIntervalMs : Rat) := by
      exact_mod_cast hTokI
    positivity
  have hstd : depletionSeq N (N.toNat + 1) =
      (List.range (N.toNat + 1)).map (fun i : Nat => N - ((i : Int) + 1)) := by
    unfold depletionSeq
    apply List.map_congr_left
    intro i _
    ring
  refine ⟨?_, ?_, ?_, ?_, ?_, ?_, ?_, ?_, ?_, ?_, ?_⟩
  · unfold depletionSeq
    rw [List.range_succ, List.map_append]
    simp only [List.map_cons, List.map_nil, List.append_cancel_left_eq,
      List.cons.injEq, and_true]
    omega
  · rw [fixedNoLua_run_fresh oFix clientId hFixW _ hrepne hmem, hstd, hlen,
      hFixL]
  · rw [fixedLua_run_fresh oFix clientId hFixW _ hrepne hmem, hlen, hFixL]
    unfold depletionSeq
    apply List.map_congr_left
    intro i hi
    rw [List.mem_range] at hi
    omega
  · rw [floatingNoLua_run_fresh oFlo clientId hFloW _ hrepne hmemF, hstd, hlen,
      hFloL]
  · rw [floatingLua_run_fresh oFlo clientId hFloW _ hrepne hmemF, hstd, hlen,
      hFloL]
  · rw [sliding_run_variants_eq oSli clientId _ [] storeKeysNodup_nil]
    rw [show (runCalls (fun s p => SlidingWindowLimiter.registerHit oSli s clientId p.1 p.2)
        [] ((List.range (N.toNat + 1)).map (fun i : Nat => (i, t0)))).1 =
      ((List.range (N.toNat + 1)).map (fun i : Nat => oSli.limit - ((i : Int) + 1))) from
      by rw [slidingLua_run_fresh oSli clientId (fun _ => t0) hSliW N.toNat
          (fun a b hab hb => le_refl t0)
          (fun a b ha hb => by simpa using hSliW)]]
    rw [hstd, hSliL]
  · rw [slidingLua_run_fresh oSli clientId (fun _ => t0) hSliW N.toNat
        (fun a b hab hb => le_refl t0)
        (fun a b ha hb => by simpa using hSliW)]
    rw [hstd, hSliL]
  · rw [tokenNoLua_run_fresh oTok clientId t0 (by omega) hE N.toNat]
    unfold depletionSeq
    apply List.map_congr_left
    intro i hi
    rw [List.mem_range] at hi
    omega
  · rw [tokenLua_run_fresh oTok clientId t0 (by omega) hE N.toNat]
    unfold depletionSeq
    apply List.map_congr_left
    intro i hi
    rw [List.mem_range] at hi
    omega
  · rw [fwMem_run_fresh oMem clientId t0 hMemW N.toNat, hstd, hMemL]
  · rw [flMem_run_fresh oMem clientId t0 hMemW N.toNat, hstd, hMemL]

def cexDepFixOpts : FixedWindowLimiterOpts :=
  { windowSizeMs := 10, startDate := 0, limit := 2, keyPfx := testPfx }

def cexDepFloOpts : FloatingWindowLimiterOpts :=
  { windowSizeMs := 10, startDate := 0, limit := 2, keyPfx := testPfx }

def cexDepSliOpts : SlidingWindowLimiterOpts :=
  { windowSizeMs := 10, limit := 2, keyPfx := testPfx }

def cexDepTokOpts : TokenBucketLimiterOpts :=
  { limit := 2, refillIntervalMs := 1000, refillRate := 1, keyPfx := testPfx }

def cexDepMemOpts : InMemoryRateLimiterOpts :=
  { windowSizeMs := 10, startDate := 0, limit := 2 }

/-- C2 witness: the depletion sequence `[1, 0, -1]` for `N = 2` at
`t0 = 0` across all ten variants. -/
theorem monotonic_depletion_witness :
    depletionSeq 2 ((2 : Int).toNat + 1) =
      (List.range (2 : Int).toNat).map (fun i : Nat => 2 - 1 - (i : Int)) ++ [-1] ∧
    (runCalls (fun s t => FixedWindowLimiterNoLua.registerHit cexDepFixOpts s testClient t)
      [] (List.replicate ((2 : Int).toNat + 1) 0)).1 = depletionSeq 2 ((2 : Int).toNat + 1) ∧
    (runCalls (fun s t => FixedWindowLimiter.registerHit cexDepFixOpts s testClient t)
      [] (List.replicate ((2 : Int).toNat + 1) 0)).1 = depletionSeq 2 ((2 : Int).toNat + 1) ∧
    (runCalls (fun s t => FloatingWindowLimiterNoLua.registerHit cexDepFloOpts s testClient t)
      [] (List.replicate ((2 : Int).toNat + 1) 0)).1 = depletionSeq 2 ((2 : Int).toNat + 1) ∧
    (runCalls (fun s t => FloatingWindowLimiter.registerHit cexDepFloOpts s testClient t)
      [] (List.replicate ((2 : Int).toNat + 1) 0)).1 = depletionSeq 2 ((2 : Int).toNat + 1) ∧
    (runCalls (fun s p => SlidingWindowLimiterNoLua.registerHit cexDepSliOpts s testClient p.1 p.2)
      [] ((List.range ((2 : Int).toNat + 1)).map (fun i : Nat => (i, (0 : Int))))).1 =
        depletionSeq 2 ((2 : Int).toNat + 1) ∧
    (runCalls (fun s p => SlidingWindowLimiter.registerHit cexDepSliOpts s testClient p.1 p.2)
      [] ((List.range ((2 : Int).toNat + 1)).map (fun i : Nat => (i, (0 : Int))))).1 =
        depletionSeq 2 ((2 : Int).toNat + 1) ∧
    (runCalls (fun s t => TokenBucketLimiterNoLua.registerHit cexDepTokOpts s testClient t)
      [] (List.replicate ((2 : Int).toNat + 1) 0)).1 = depletionSeq 2 ((2 : Int).toNat + 1) ∧
    (runCalls (fun s t => TokenBucketLimiter.registerHit cexDepTokOpts s testClient t)
      [] (List.replicate ((2 : Int).toNat + 1) 0)).1 = depletionSeq 2 ((2 : Int).toNat + 1) ∧
    (runCalls (fun st t => FixedWindowInMemoryLimiter.registerHit st testClient t)
      (FixedWindowInMemoryLimiter.create cexDepMemOpts 0)
      (List.replicate ((2 : Int).toNat + 1) 0)).1 = depletionSeq 2 ((2 : Int).toNat + 1) ∧
    (runCalls (fun st t => FloatingWindowInMemoryLimiter.registerHit st testClient t)
      (FloatingWindowInMemoryLimiter.create cexDepMemOpts 0)
      (List.replicate ((2 : Int).toNat + 1) 0)).1 = depletionSeq 2 ((2 : Int).toNat + 1) :=
  monotonic_depletion 2 0 testClient (by decide)
    cexDepFixOpts rfl (by decide)
    cexDepFloOpts rfl (by decide)
    cexDepSliOpts rfl (by decide)
    cexDepTokOpts rfl (by decide) (by norm_num [cexDepTokOpts])
    cexDepMemOpts rfl (by decide)

/-! ### Claim C5 -/

/-- C5 (amended): on a script result of a non-numeric shape the fixed-,
sliding- and floating-window script wrappers throw a `TypeError`; the
token-bucket wrapper however performs no shape check — it coerces the
result with `Number(...)` and always returns, so such a call never
fails (a non-numeric string becomes `NaN`, which the caller's
`remaining < 0` test reads as "not limited"). -/
theorem lua_resultShape_amended (v : ScriptValue)
    (h : ∀ n : Int, v ≠ ScriptValue.vInt n) :
    FixedWindowLimiter.handleScriptResult v = Except.error typeErrorMsg ∧
    SlidingWindowLimiter.handleScriptResult v = Except.error typeErrorMsg ∧
    FloatingWindowLimiter.handleScriptResult v = Except.error typeErrorMsg ∧
    ∃ r, TokenBucketLimiter.handleScriptResult v = Except.ok r := by
  cases v with
  | vInt n => exact absurd rfl (h n)
  | vStr s => exact ⟨rfl, rfl, rfl, mathFloorJs (parseJsNumber s), rfl⟩
  | vNil => exact ⟨rfl, rfl, rfl, some 0, rfl⟩

def cexScriptMsg : String := "OK"

/-- C5 witness: the error/no-error split at the concrete bulk-string
result `"OK"`. -/
theorem lua_resultShape_amended_witness :
    (∀ n : Int, ScriptValue.vStr cexScriptMsg ≠ ScriptValue.vInt n) ∧
    (FixedWindowLimiter.handleScriptResult (ScriptValue.vStr cexScriptMsg) =
        Except.error typeErrorMsg ∧
      SlidingWindowLimiter.handleScriptResult (ScriptValue.vStr cexScriptMsg) =
        Except.error typeErrorMsg ∧
      FloatingWindowLimiter.handleScriptResult (ScriptValue.vStr cexScriptMsg) =
        Except.error typeErrorMsg ∧
      ∃ r, TokenBucketLimiter.handleScriptResult (ScriptValue.vStr cexScriptMsg) =
        Except.ok r) :=
  ⟨fun n => by simp, lua_resultShape_amended (ScriptValue.vStr cexScriptMsg)
    (fun n => by simp)⟩

/-- C5 counterexample: the token-bucket script wrapper maps the
non-numeric scalar `"OK"` to `NaN` without raising any error, and the
admission test treats that `NaN` as not limited — while e.g. the
sliding-window wrapper errors on the same input. -/
theorem lua_resultShape_counterexample :
    TokenBucketLimiter.handleScriptResult (ScriptValue.vStr cexScriptMsg) =
      Except.ok none ∧
    jsIsLimited none = false ∧
    SlidingWindowLimiter.handleScriptResult (ScriptValue.vStr cexScriptMsg) =
      Except.error typeErrorMsg := by
  refine ⟨?_, rfl, rfl⟩
  rfl

/-! ### Claim C9 -/

/-- C9: constructor-time validation.  For every limiter strategy
(including the shared in-memory options), a partial options object with
a present non-positive numeric field or a wrongly-typed field makes the
constructor throw the zod validation error, and any options object that
passes its schema yields a successfully constructed limiter (the
defaults merged with the provided fields). -/
theorem construct_validation (q : Rat) (hq : q ≤ 0) :
    (∀ p : FixedWindowLimiterRawOpts,
      p.windowSizeMs = some (JsVal.num q) ∨ p.limit = some (JsVal.num q) ∨
        p.windowSizeMs = some JsVal.other ∨ p.startDate = some JsVal.other ∨
        p.limit = some JsVal.other ∨ p.keyPfx = some JsVal.other →
      FixedWindowLimiterNoLua.construct (some p) = Except.error zodErrorMsg) ∧
    (∀ p : FloatingWindowLimiterRawOpts,
      p.windowSizeMs = some (JsVal.num q) ∨ p.limit = some (JsVal.num q) ∨
        p.windowSizeMs = some JsVal.other ∨ p.startDate = some JsVal.other ∨
        p.limit = some JsVal.other ∨ p.keyPfx = some JsVal.other →
      FloatingWindowLimiterNoLua.construct (some p) = Except.error zodErrorMsg) ∧
    (∀ p : SlidingWindowLimiterRawOpts,
      p.windowSizeMs = some (JsVal.num q) ∨ p.limit = some (JsVal.num q) ∨
        p.windowSizeMs = some JsVal.other ∨ p.limit = some JsVal.other ∨
        p.keyPfx = some JsVal.other →
      SlidingWindowLimiterNoLua.construct (some p) = Except.error zodErrorMsg) ∧
    (∀ p : TokenBucketLimiterRawOpts,
      p.limit = some (JsVal.num q) ∨ p.refillIntervalMs = some (JsVal.num q) ∨
        p.refillRate = some (JsVal.num q) ∨ p.limit = some JsVal.other ∨
        p.refillIntervalMs = some JsVal.other ∨ p.refillRate = some JsVal.other ∨
        p.keyPfx = some JsVal.other →
      TokenBucketLimiterNoLua.construct (some p) = Except.error zodErrorMsg) ∧
    (∀ p : InMemoryRateLimiterRawOpts,
      p.windowSizeMs = some (JsVal.num q) ∨ p.limit = some (JsVal.num q) ∨
        p.windowSizeMs = some JsVal.other ∨ p.startDate = some JsVal.other ∨
        p.limit = some JsVal.other →
      inMemoryRateLimiterConstructOpts (some p) = Except.error zodErrorMsg) ∧
    (∀ p : FixedWindowLimiterRawOpts, fixedWindowLimiterOptsSchemaCheck p = true →
      ∃ o, FixedWindowLimiterNoLua.construct (some p) = Except.ok o) ∧
    (∀ p : FloatingWindowLimiterRawOpts, floatingWindowLimiterOptsSchemaCheck p = true →
      ∃ o, FloatingWindowLimiterNoLua.construct (some p) = Except.ok o) ∧
    (∀ p : SlidingWindowLimiterRawOpts, slidingWindowLimiterOptsSchemaCheck p = true →
      ∃ o, SlidingWindowLimiterNoLua.construct (some p) = Except.ok o) ∧
    (∀ p : TokenBucketLimiterRawOpts, tokenBucketLimiterOptsSchemaCheck p = true →
      ∃ o, TokenBucketLimiterNoLua.construct (some p) = Except.ok o) ∧
    (∀ p : InMemoryRateLimiterRawOpts, inMemoryRateLimiterOptsSchemaCheck p = true →
      ∃ o, inMemoryRateLimiterConstructOpts (some p) = Except.ok o) := by
  have hq2 : ¬((0 : Rat) < q) := not_lt.mpr hq
  refine ⟨?_, ?_, ?_, ?_, ?_, ?_, ?_, ?_, ?_, ?_⟩
  · intro p h
    rcases h with h | h | h | h | h | h <;>
      simp [FixedWindowLimiterNoLua.construct, fixedWindowLimiterOptsSchemaCheck,
        checkOptField, zPosInt, zPosNum, zDate, zStr, h, hq2]
  · intro p h
    rcases h with h | h | h | h | h | h <;>
      simp [FloatingWindowLimiterNoLua.construct, floatingWindowLimiterOptsSchemaCheck,
        checkOptField, zPosInt, zPosNum, zDate, zStr, h, hq2]
  · intro p h
    rcases h with h | h | h | h | h <;>
      simp [SlidingWindowLimiterNoLua.construct, slidingWindowLimiterOptsSchemaCheck,
        checkOptField, zPosInt, zPosNum, zDate, zStr, h, hq2]
  · intro p h
    rcases h with h | h | h | h | h | h | h <;>
      simp [TokenBucketLimiterNoLua.construct, tokenBucketLimiterOptsSchemaCheck,
        checkOptField, zPosInt, zPosNum, zDate, zStr, h, hq2]
  · intro p h
    rcases h with h | h | h | h | h <;>
      simp [inMemoryRateLimiterConstructOpts, inMemoryRateLimiterOptsSchemaCheck,
        checkOptField, zPosInt, zPosNum, zDate, zStr, h, hq2]
  · intro p h
    simp only [FixedWindowLimiterNoLua.construct, if_pos h]
    exact ⟨_, rfl⟩
  · intro p h
    simp only [FloatingWindowLimiterNoLua.construct, if_pos h]
    exact ⟨_, rfl⟩
  · intro p h
    simp only [SlidingWindowLimiterNoLua.construct, if_pos h]
    exact ⟨_, rfl⟩
  · intro p h
    simp only [TokenBucketLimiterNoLua.construct, if_pos h]
    exact ⟨_, rfl⟩
  · intro p h
    simp only [inMemoryRateLimiterConstructOpts, if_pos h]
    exact ⟨_, rfl⟩

def cexRawFixOpts : FixedWindowLimiterRawOpts :=
  { windowSizeMs := none, startDate := none, limit := some (JsVal.num 0),
    keyPfx := none }

def cexRawTokOpts : TokenBucketLimiterRawOpts :=
  { limit := none, refillIntervalMs := none, refillRate := none, keyPfx := none }

/-- C9 witness: `limit: 0` is rejected by the fixed-window constructor,
while an empty partial options object passes the token-bucket schema and
constructs successfully. -/
theorem construct_validation_witness :
    (0 : Rat) ≤ 0 ∧
    FixedWindowLimiterNoLua.construct (some cexRawFixOpts) =
      Except.error zodErrorMsg ∧
    (∃ o, TokenBucketLimiterNoLua.construct (some cexRawTokOpts) =
      Except.ok o) :=
  ⟨le_refl 0,
   (construct_validation 0 (le_refl 0)).1 cexRawFixOpts (Or.inr (Or.inl rfl)),
   (construct_validation 0 (le_refl 0)).2.2.2.2.2.2.2.2.1 cexRawTokOpts rfl⟩

/-! ### Claim C10 -/

/-- Structural part of the two-window invariant: both windows have
duration `windowSizeMs` with `endTs = startTs + duration`, they are
adjacent (`previous.endTs = current.startTs`), and both starts lie on
the `startDate`-anchored grid. -/
def FloatWindowsShape (st : FloatingWindowInMemoryLimiter) : Prop :=
  st.currentWindow.duration = st.opts.windowSizeMs ∧
  st.previousWindow.duration = st.opts.windowSizeMs ∧
  st.currentWindow.endTs = st.currentWindow.startTs + st.opts.windowSizeMs ∧
  st.previousWindow.endTs = st.previousWindow.startTs + st.opts.windowSizeMs ∧
  st.previousWindow.endTs = st.currentWindow.startTs ∧
  (st.currentWindow.startTs - st.opts.startDate) % st.opts.windowSizeMs = 0 ∧
  (st.previousWindow.startTs - st.opts.startDate) % st.opts.windowSizeMs = 0

/-- The full two-window invariant at time `now`: the structure above
plus currency (`current.startTs ≤ now < current.endTs`). -/
def FloatWindowsInvariant (st : FloatingWindowInMemoryLimiter) (now : Int) :
    Prop :=
  FloatWindowsShape st ∧ st.currentWindow.startTs ≤ now ∧
    now < st.currentWindow.endTs

theorem emod_sub_self_left {a b : Int} (h : a % b = 0) : (a - b) % b = 0 := by
  obtain ⟨k, hk⟩ := Int.dvd_of_emod_eq_zero h
  have h2 : a - b = b * (k - 1) := by rw [hk]; ring
  rw [h2]
  exact Int.mul_emod_right _ _

theorem emod_add_self_left {a b : Int} (h : a % b = 0) : (a + b) % b = 0 := by
  obtain ⟨k, hk⟩ := Int.dvd_of_emod_eq_zero h
  have h2 : a + b = b * (k + 1) := by rw [hk]; ring
  rw [h2]
  exact Int.mul_emod_right _ _

theorem floatShape_create (opts : InMemoryRateLimiterOpts) (ts : Int)
    (hW : 0 < opts.windowSizeMs) :
    FloatWindowsInvariant (FloatingWindowInMemoryLimiter.create opts ts) ts := by
  have hgrid := windowStartTs_onGrid opts.startDate opts.windowSizeMs ts
  have hle := @windowStartTs_le (opts.startDate) _ (ts) hW
  have hlt := @lt_windowStartTs_add (opts.startDate) _ (ts) hW
  have hgrid2 : (windowStartTs opts.startDate opts.windowSizeMs ts -
      opts.windowSizeMs - opts.startDate) % opts.windowSizeMs = 0 := by
    have heq : windowStartTs opts.startDate opts.windowSizeMs ts -
        opts.windowSizeMs - opts.startDate =
        windowStartTs opts.startDate opts.windowSizeMs ts - opts.startDate -
          opts.windowSizeMs := by ring
    rw [heq]
    exact emod_sub_self_left hgrid
  exact ⟨⟨rfl, rfl, rfl, rfl, by
    simp only [FloatingWindowInMemoryLimiter.create, RateLimiterWindow.create,
      inMemoryCalcWindowStartTs]
    ring, hgrid, hgrid2⟩, hle, hlt⟩

theorem floatShape_check (st : FloatingWindowInMemoryLimiter) (ts : Int)
    (hW : 0 < st.opts.windowSizeMs) (hs : FloatWindowsShape st) :
    FloatWindowsInvariant
      (FloatingWindowInMemoryLimiter.checkWindowExpiration st ts) ts := by
  obtain ⟨h1, h2, h3, h4, h5, h6, h7⟩ := hs
  have hgrid := windowStartTs_onGrid st.opts.startDate st.opts.windowSizeMs ts
  have hle := @windowStartTs_le (st.opts.startDate) _ (ts) hW
  have hlt := @lt_windowStartTs_add (st.opts.startDate) _ (ts) hW
  unfold FloatingWindowInMemoryLimiter.checkWindowExpiration
  by_cases hexp : st.currentWindow.isExpiredAt ts = true
  · rw [if_pos hexp]
    simp only []
    by_cases hold : st.currentWindow.isExpiredAt
        (ts - st.previousWindow.duration) = true
    · rw [if_pos hold]
      have hgrid2 : (windowStartTs st.opts.startDate st.opts.windowSizeMs
          (ts - st.opts.windowSizeMs) - st.opts.startDate) %
            st.opts.windowSizeMs = 0 :=
        windowStartTs_onGrid _ _ _
      refine ⟨⟨rfl, rfl, rfl, rfl, ?_, hgrid, ?_⟩, hle, hlt⟩
      · simp only [RateLimiterWindow.create, inMemoryCalcWindowStartTs, h2]
        rw [windowStartTs_sub_duration _ _ (by omega)]
        ring
      · simp only [RateLimiterWindow.create, inMemoryCalcWindowStartTs, h2]
        rw [windowStartTs_sub_duration _ _ (by omega)]
        have heq : windowStartTs st.opts.startDate st.opts.windowSizeMs ts -
            st.opts.windowSizeMs - st.opts.startDate =
            windowStartTs st.opts.startDate st.opts.windowSizeMs ts -
              st.opts.startDate - st.opts.windowSizeMs := by ring
        rw [heq]
        exact emod_sub_self_left hgrid
    · rw [if_neg hold]
      rw [RateLimiterWindow.isExpiredAt, h2] at hold
      simp only [Bool.not_eq_true, Bool.not_eq_false', Bool.and_eq_true,
        decide_eq_true_eq] at hold
      have hcs : windowStartTs st.opts.startDate st.opts.windowSizeMs ts =
          st.currentWindow.startTs + st.opts.windowSizeMs := by
        apply windowStartTs_eq_of_mem hW
        · have h8 := emod_add_self_left h6
          have heq2 : st.currentWindow.startTs + st.opts.windowSizeMs -
              st.opts.startDate = st.currentWindow.startTs -
              st.opts.startDate + st.opts.windowSizeMs := by ring
          rw [heq2]
          exact h8
        · omega
        · omega
      refine ⟨⟨rfl, h1, rfl, h3, ?_, hgrid, h6⟩, hle, hlt⟩
      simp only [RateLimiterWindow.create, inMemoryCalcWindowStartTs]
      omega
  · rw [if_neg hexp]
    rw [RateLimiterWindow.isExpiredAt] at hexp
    simp only [Bool.not_eq_true, Bool.not_eq_false', Bool.and_eq_true,
      decide_eq_true_eq] at hexp
    exact ⟨⟨h1, h2, h3, h4, h5, h6, h7⟩, hexp.1, hexp.2⟩

/-- C10: the in-memory floating limiter always holds exactly two
adjacent grid-aligned windows of duration `windowSizeMs`, with
`endTs = startTs + duration` and the current window containing the
clock value used: this holds after construction, and every operation
(`registerHit`, `getAvailableHits`, `checkExpiration`, `clear`)
performed at time `ts` on a structurally well-formed state re-establishes
the full invariant at `ts`. -/
theorem floatingInMemory_twoWindows_invariant (clientId : String) :
    (∀ (opts : InMemoryRateLimiterOpts) (ts : Int), 0 < opts.windowSizeMs →
      FloatWindowsInvariant (FloatingWindowInMemoryLimiter.create opts ts) ts) ∧
    (∀ (st : FloatingWindowInMemoryLimiter) (ts : Int),
      0 < st.opts.windowSizeMs → FloatWindowsShape st →
      FloatWindowsInvariant
        ((FloatingWindowInMemoryLimiter.registerHit st clientId ts).2) ts ∧
      FloatWindowsInvariant
        ((FloatingWindowInMemoryLimiter.getAvailableHits st clientId ts).2) ts ∧
      FloatWindowsInvariant
        (FloatingWindowInMemoryLimiter.checkWindowExpiration st ts) ts ∧
      FloatWindowsInvariant (FloatingWindowInMemoryLimiter.clear st ts) ts) := by
  refine ⟨fun opts ts hW => floatShape_create opts ts hW, fun st ts hW hs => ?_⟩
  have hchk := floatShape_check st ts hW hs
  refine ⟨?_, hchk, hchk, ?_⟩
  · exact hchk
  · exact floatShape_create st.opts ts hW

/-- C10 witness: the invariant concretely after construction at `ts = 7`
and after a `registerHit` that rotates the windows at `ts = 12`
(`windowSizeMs = 10`). -/
theorem floatingInMemory_twoWindows_invariant_witness :
    FloatWindowsInvariant
      (FloatingWindowInMemoryLimiter.create cexDepMemOpts 7) 7 ∧
    FloatWindowsInvariant
      ((FloatingWindowInMemoryLimiter.registerHit
        (FloatingWindowInMemoryLimiter.create cexDepMemOpts 7) testClient 12).2)
      12 :=
  ⟨(floatingInMemory_twoWindows_invariant testClient).1 cexDepMemOpts 7
      (by decide),
   ((floatingInMemory_twoWindows_invariant testClient).2
      (FloatingWindowInMemoryLimiter.create cexDepMemOpts 7) 12 (by decide)
      ⟨by decide, by decide, by decide, by decide, by decide, by decide,
       by decide⟩).1⟩

/-! ### Claim C1 -/

/-- C1 (amended): per-strategy relation between the script and
transaction variants on sequential single-caller runs.  The
sliding-window variants produce identical result sequences and stores on
every input sequence.  The floating-window variants coincide on fresh
runs within one window.  The fixed-window variants keep identical
stores, but the script variant clamps each result at `-1`
(`Math.max(result, -1)`), so the result sequences differ once a window
is over the limit; the token-bucket variants differ in refill semantics
(refill amount vs refilled total capped at `limit`), so even
non-negative results can differ. -/
theorem lua_noLua_equivalence_amended (clientId : String) :
    (∀ (opts : SlidingWindowLimiterOpts) (inputs : List (Nat × Int)),
      runCalls (fun s p =>
          SlidingWindowLimiterNoLua.registerHit opts s clientId p.1 p.2)
        [] inputs =
      runCalls (fun s p =>
          SlidingWindowLimiter.registerHit opts s clientId p.1 p.2)
        [] inputs) ∧
    (∀ (opts : FixedWindowLimiterOpts) (times : List Int) (c : Int),
      0 < opts.windowSizeMs → times ≠ [] →
      (∀ t ∈ times,
        FixedWindowLimiterNoLua.calcCurrentWindowStartTs opts t = c) →
      (runCalls (fun s t => FixedWindowLimiter.registerHit opts s clientId t)
          [] times).1 =
        ((runCalls (fun s t =>
            FixedWindowLimiterNoLua.registerHit opts s clientId t)
          [] times).1).map (fun r => max r (-1)) ∧
      (runCalls (fun s t => FixedWindowLimiter.registerHit opts s clientId t)
          [] times).2 =
        (runCalls (fun s t =>
            FixedWindowLimiterNoLua.registerHit opts s clientId t)
          [] times).2) ∧
    (∀ (opts : FloatingWindowLimiterOpts) (times : List Int) (c : Int),
      0 < opts.windowSizeMs → times ≠ [] →
      (∀ t ∈ times,
        FloatingWindowLimiterNoLua.calcFixedWindowStartTs opts t = c) →
      runCalls (fun s t => FloatingWindowLimiter.registerHit opts s clientId t)
        [] times =
      runCalls (fun s t =>
          FloatingWindowLimiterNoLua.registerHit opts s clientId t)
        [] times) := by
  refine ⟨?_, ?_, ?_⟩
  · intro opts inputs
    exact sliding_run_variants_eq opts clientId inputs [] storeKeysNodup_nil
  · intro opts times c hW hne h
    rw [fixedNoLua_run_fresh opts clientId hW times hne h,
      fixedLua_run_fresh opts clientId hW times hne h]
    exact ⟨by rw [List.map_map]; rfl, rfl⟩
  · intro opts times c hW hne h
    rw [floatingNoLua_run_fresh opts clientId hW times hne h,
      floatingLua_run_fresh opts clientId hW times hne h]

/-- C1 witness: the fixed-window relation instantiated on three hits in
one window with `limit = 1` (results `[0, -1, -2]` vs `[0, -1, -1]`,
identical stores). -/
theorem lua_noLua_equivalence_amended_witness :
    (runCalls (fun s t => FixedWindowLimiter.registerHit cexFixedOpts s testClient t)
        [] [0, 0, 0]).1 =
      ((runCalls (fun s t =>
          FixedWindowLimiterNoLua.registerHit cexFixedOpts s testClient t)
        [] [0, 0, 0]).1).map (fun r => max r (-1)) ∧
    (runCalls (fun s t => FixedWindowLimiter.registerHit cexFixedOpts s testClient t)
        [] [0, 0, 0]).2 =
      (runCalls (fun s t =>
          FixedWindowLimiterNoLua.registerHit cexFixedOpts s testClient t)
        [] [0, 0, 0]).2 :=
  (lua_noLua_equivalence_amended testClient).2.1 cexFixedOpts [0, 0, 0] 0
    (by decide) (by decide) (by decide)

theorem cexTokenRefill_eval :
    TokenBucketLimiterNoLua.timeForCompleteRefillMs cexTokenOpts =
      ((3000 : Int) : Rat) := by
  norm_num [TokenBucketLimiterNoLua.timeForCompleteRefillMs, cexTokenOpts]

theorem cexTokenRefill_ceil :
    ⌈TokenBucketLimiterNoLua.timeForCompleteRefillMs cexTokenOpts⌉ = 3000 := by
  rw [cexTokenRefill_eval]
  exact Int.ceil_intCast _

theorem tokenNoLua_cex_run :
    (runCalls (fun s t =>
        TokenBucketLimiterNoLua.registerHit cexTokenOpts s testClient t)
      [] [0, 2000]).1 = [2, 3] := by
  simp only [runCalls]
  rw [tokenNoLua_step_fresh cexTokenOpts testClient 0 (by norm_num [cexTokenOpts])]
  rw [cexTokenRefill_ceil]
  have hne := tbKeys_ne cexTokenOpts testClient
  have hne2 : (TokenBucketLimiterNoLua.getNTokensKey cexTokenOpts testClient =
      TokenBucketLimiterNoLua.getTsKey cexTokenOpts testClient) = False := by
    simp [hne]
  have hne3 : (TokenBucketLimiterNoLua.getTsKey cexTokenOpts testClient =
      TokenBucketLimiterNoLua.getNTokensKey cexTokenOpts testClient) = False := by
    simp [Ne.symm hne]
  have hlim : cexTokenOpts.limit = 3 := rfl
  have hint : cexTokenOpts.refillIntervalMs = 1000 := rfl
  have hrat : cexTokenOpts.refillRate = 1 := rfl
  norm_num [TokenBucketLimiterNoLua.registerHit, hlim, hint, hrat,
    TokenBucketLimiterNoLua.calculateRefilledTokenAmountAtTime,
    TokenBucketLimiterNoLua.getRefillAmountInMs,
    TokenBucketLimiterNoLua.updateBucket, vkGet, liveGet, kvGet, vkSetEx, kvSet,
    tbStore, entryLive, hne2, hne3]

theorem tokenLua_cex_run :
    (runCalls (fun s t =>
        TokenBucketLimiter.registerHit cexTokenOpts s testClient t)
      [] [0, 2000]).1 = [2, 2] := by
  simp only [runCalls]
  rw [tokenLua_step_fresh cexTokenOpts testClient 0 (by norm_num [cexTokenOpts])]
  rw [cexTokenRefill_ceil]
  have hne := tbKeys_ne cexTokenOpts testClient
  have hne2 : (TokenBucketLimiterNoLua.getNTokensKey cexTokenOpts testClient =
      TokenBucketLimiterNoLua.getTsKey cexTokenOpts testClient) = False := by
    simp [hne]
  have hne3 : (TokenBucketLimiterNoLua.getTsKey cexTokenOpts testClient =
      TokenBucketLimiterNoLua.getNTokensKey cexTokenOpts testClient) = False := by
    simp [Ne.symm hne]
  have hlim : cexTokenOpts.limit = 3 := rfl
  have hint : cexTokenOpts.refillIntervalMs = 1000 := rfl
  have hrat : cexTokenOpts.refillRate = 1 := rfl
  norm_num [TokenBucketLimiter.registerHit, hlim, hint, hrat, TokenBucketLimiter.luaScript,
    vkGet, liveGet, kvGet, vkSetEx, kvSet,
    tbStore, entryLive, hne2, hne3, cexTokenRefill_ceil]

/-- C1 counterexample: with `limit = 1`, three same-window hits give
`[0, -1, -2]` from the fixed-window transaction variant but
`[0, -1, -1]` from its script variant; and with `limit = 3`,
`refillRate = 1` per `1000ms`, hits at `t = 0` and `t = 2000` give
`[2, 3]` from the token-bucket transaction variant (refill amount capped
at `limit`) but `[2, 2]` from its script variant (refilled total capped
at `limit`) — so the variants' result sequences are not identical. -/
theorem lua_noLua_equivalence_counterexample :
    (runCalls (fun s t =>
        FixedWindowLimiterNoLua.registerHit cexFixedOpts s testClient t)
      [] [0, 0, 0]).1 = [0, -1, -2] ∧
    (runCalls (fun s t =>
        FixedWindowLimiter.registerHit cexFixedOpts s testClient t)
      [] [0, 0, 0]).1 = [0, -1, -1] ∧
    ([0, -1, -2] : List Int) ≠ [0, -1, -1] ∧
    (runCalls (fun s t =>
        TokenBucketLimiterNoLua.registerHit cexTokenOpts s testClient t)
      [] [0, 2000]).1 = [2, 3] ∧
    (runCalls (fun s t =>
        TokenBucketLimiter.registerHit cexTokenOpts s testClient t)
      [] [0, 2000]).1 = [2, 2] ∧
    ([2, 3] : List Int) ≠ [2, 2] :=
  ⟨by decide, by decide, by decide, tokenNoLua_cex_run, tokenLua_cex_run,
    by decide⟩

end RateLimiters
